import Mathlib

/-!
Verification of the dataset-reconciliation pipeline in
scripts/merge_csv_files.py against its natural-language specification.

The pandas DataFrame is shallowly embedded: a cell value is a string, an
integer or a missing value (NaN/None are both modelled as Value.null); a
row is an association list from column name to value; a DataFrame is a
column list plus a row list.  Column dtypes are modelled structurally:
a column is "object" (textual) when it contains at least one string value,
and numeric (int64/float64, including all-NaN columns) otherwise, which is
the dtype assignment pandas read_csv produces for these inputs.
Fallible operations (pandas raising / sys.exit aborting the run) return
Option.  Python int(x) and pd.to_numeric integer coercion are both
modelled by the same partial integer coercion on values.
-/

inductive Value where
  | str (s : String)
  | int (n : Int)
  | null
deriving DecidableEq

def Value.isNull : Value → Bool
  | .null => true
  | _ => false

def Value.isStr : Value → Bool
  | .str _ => true
  | _ => false

def Value.isInt : Value → Bool
  | .int _ => true
  | _ => false

abbrev Row := List (String × Value)

structure DF where
  cols : List String
  rows : List Row
deriving DecidableEq

/-- Reading a cell: the value of the first entry of the row named c
(pandas cell access; a missing entry reads as NaN). -/
def getVal : Row → String → Value
  | [], _ => .null
  | p :: r, c => if p.1 = c then p.2 else getVal r c

/-- Writing a cell: replaces the value of every entry of the row named c. -/
def setVal (r : Row) (c : String) (v : Value) : Row :=
  r.map (fun p => if p.1 = c then (p.1, v) else p)

def rowNames (r : Row) : List String := r.map (·.1)

/-- The DataFrame well-formedness invariant: every row carries exactly the
frame's columns, in order. -/
abbrev WF (df : DF) : Prop := ∀ r ∈ df.rows, rowNames r = df.cols

def dropCol (df : DF) (c : String) : DF :=
  { cols := df.cols.filter (fun c' => c' != c),
    rows := df.rows.map (fun r => r.filter (fun p => p.1 != c)) }

def dropCols (df : DF) (cs : List String) : DF := cs.foldl dropCol df

def renameFn (m : List (String × String)) (c : String) : String :=
  match m.find? (fun p => p.1 == c) with
  | some p => p.2
  | none => c

/-- pandas DataFrame.rename(columns=m): simultaneous renaming of column
labels, both in the column list and in each row. -/
def renameDF (df : DF) (m : List (String × String)) : DF :=
  { cols := df.cols.map (renameFn m),
    rows := df.rows.map (fun r => r.map (fun p => (renameFn m p.1, p.2))) }

/-- Sequencing a fallible per-row operation over all rows: any failure
(a raised exception inside .astype/.apply) fails the whole frame. -/
def optMap (f : Row → Option Row) : List Row → Option (List Row)
  | [] => some []
  | r :: rs =>
    match f r, optMap f rs with
    | some r', some rs' => some (r' :: rs')
    | _, _ => none

def digitsVal (l : List Char) : Option Nat :=
  l.foldl (fun acc c =>
    match acc with
    | none => none
    | some n => if c.isDigit then some (n * 10 + (c.toNat - 48)) else none) (some 0)

/-- Integer literal parsing: optional sign followed by at least one digit. -/
def parseIntStr (s : String) : Option Int :=
  match s.data with
  | [] => none
  | '-' :: ds => if ds.isEmpty then none else (digitsVal ds).map (fun n => -(n : Int))
  | '+' :: ds => if ds.isEmpty then none else (digitsVal ds).map (fun n => (n : Int))
  | ds => (digitsVal ds).map (fun n => (n : Int))

/-- Integer coercion of one cell, modelling both Python int(x) (used by
.astype(int) and the placeholder lambdas) and pd.to_numeric followed by
.astype(int): an integer passes through, a string must parse as an integer
literal, a missing value fails. -/
def coerceKey : Value → Option Int
  | .int n => some n
  | .str s => parseIntStr s
  | .null => none

/-- Python str.lower(). -/
def pyLower (s : String) : String := String.mk (s.data.map Char.toLower)

-- ===== scripts/merge_csv_files.py =====

def RESIDENT_ID_VARIANTS : List String :=
  ["resident ID", "resident_id", "residentId", "resident_ID"]

/-- find_resident_id_column: first variant present among the frame's
columns; sys.exit (failure) if none is. -/
def find_resident_id_column (df : DF) : Option String :=
  RESIDENT_ID_VARIANTS.find? (fun v => df.cols.contains v)

/-- The shared rename-to-resident_id step of both readers. -/
def standardizeKeyCol (df : DF) (c : String) : DF :=
  if c = "resident_id" then df else renameDF df [(c, "resident_id")]

/-- read_health_data: locate the key column, rename it to resident_id,
then df.astype(int) on it — one unparsable key raises, which the
surrounding try/except turns into sys.exit(1), i.e. failure of the run. -/
def read_health_data (df : DF) : Option DF :=
  match find_resident_id_column df with
  | none => none
  | some c =>
    let df1 := standardizeKeyCol df c
    match optMap (fun r =>
        (coerceKey (getVal r "resident_id")).map
          (fun k => setVal r "resident_id" (.int k))) df1.rows with
    | none => none
    | some rows1 => some { df1 with rows := rows1 }

/-- read_demographic_data: locate the key column, rename it, then
pd.to_numeric(errors='coerce') + dropna + astype(int) — rows whose key
fails coercion are dropped, the rest get an integer key. -/
def read_demographic_data (df : DF) : Option DF :=
  match find_resident_id_column df with
  | none => none
  | some c =>
    let df1 := standardizeKeyCol df c
    some { df1 with rows := df1.rows.filterMap (fun r =>
      (coerceKey (getVal r "resident_id")).map
        (fun k => setVal r "resident_id" (.int k))) }

/-- identify_overlapping_columns: columns present in both frames, minus
the merge key.  The Python set is modelled as a list; no theorem depends
on its order. -/
def identify_overlapping_columns (health_df demo_df : DF) : List String :=
  health_df.cols.filter (fun c => demo_df.cols.contains c && c != "resident_id")

/-- prepare_health_data_for_merge: suffix the overlapping columns of the
health frame with _health, and drop the empty Unnamed: 13 column. -/
def prepare_health_data_for_merge (health_df : DF) (overlapping : List String) : DF :=
  let renamed := renameDF health_df
    (overlapping.filterMap (fun c =>
      if health_df.cols.contains c then some (c, c ++ "_health") else none))
  if renamed.cols.contains "Unnamed: 13" then dropCol renamed "Unnamed: 13" else renamed

def keyVal (r : Row) : Value := getVal r "resident_id"

def keysOf (df : DF) : List Value := df.rows.map keyVal

/-- Keys in order of first appearance (the factorization order pandas uses
for the join groups when sort=False). -/
def firstOccurAux (seen : List Value) : List Value → List Value
  | [] => []
  | k :: ks =>
    if seen.contains k then firstOccurAux seen ks
    else k :: firstOccurAux (k :: seen) ks

def firstOccur (l : List Value) : List Value := firstOccurAux [] l

/-- Right-frame columns as they appear in the merged frame: the merge key
is shared, a name clashing with a left column gets the _health suffix
(the suffixes=('', '_health') argument). -/
def suffixHealthCols (demoCols healthCols : List String) : List String :=
  healthCols.filterMap (fun c =>
    if c = "resident_id" then none
    else if demoCols.contains c then some (c ++ "_health") else some c)

def healthEntries (demoCols : List String) (r : Row) : Row :=
  r.filterMap (fun p =>
    if p.1 = "resident_id" then none
    else if demoCols.contains p.1 then some (p.1 ++ "_health", p.2) else some p)

def bothRow (demoCols : List String) (l r : Row) : Row :=
  l ++ healthEntries demoCols r ++ [("_merge", Value.str "both")]

def leftOnlyRow (demoCols healthCols : List String) (l : Row) : Row :=
  l ++ (suffixHealthCols demoCols healthCols).map (fun c => (c, Value.null))
    ++ [("_merge", Value.str "left_only")]

def rightOnlyRow (demoCols : List String) (r : Row) : Row :=
  demoCols.map (fun c => (c, if c = "resident_id" then keyVal r else Value.null))
    ++ healthEntries demoCols r ++ [("_merge", Value.str "right_only")]

/-- The merged rows of one join group (one key): a cross product tagged
both when the key is on both sides, otherwise the surviving side's rows
padded with nulls and tagged left_only or right_only. -/
def mergeGroup (health_df demo_df : DF) (k : Value) : List Row :=
  let ls := demo_df.rows.filter (fun r => keyVal r == k)
  let rs := health_df.rows.filter (fun r => keyVal r == k)
  if ls.isEmpty then rs.map (rightOnlyRow demo_df.cols)
  else if rs.isEmpty then ls.map (leftOnlyRow demo_df.cols health_df.cols)
  else ls.flatMap (fun l => rs.map (fun r => bothRow demo_df.cols l r))

/-- merge_dataframes: pd.merge(demo_df, health_df, on='resident_id',
how='outer', indicator=True, suffixes=('', '_health')).  With sort=False
(the default) pandas orders the output by first appearance of the key
scanning the left frame then the right frame, grouping rows of one key
together (cross product, left-major, within a key). -/
def merge_dataframes (health_df demo_df : DF) : DF :=
  { cols := demo_df.cols ++ suffixHealthCols demo_df.cols health_df.cols ++ ["_merge"],
    rows := (firstOccur (keysOf demo_df ++ keysOf health_df)).flatMap
      (mergeGroup health_df demo_df) }

/-- One step of resolve_overlapping_columns: if both the demographic and
the _health representation exist, fill the demographic column where it is
NaN and the health value is not, then drop the health column. -/
def resolveOne (df : DF) (col : String) : DF :=
  let hc := col ++ "_health"
  if df.cols.contains col && df.cols.contains hc then
    dropCol
      { df with rows := df.rows.map (fun r =>
          if (getVal r col).isNull && !(getVal r hc).isNull
          then setVal r col (getVal r hc) else r) }
      hc
  else df

def resolve_overlapping_columns (df : DF) (overlapping : List String) : DF :=
  overlapping.foldl resolveOne df

/-- The gender synonym table of standardize_column_names and
deduplicate_columns (both functions carry the identical literal dict). -/
def gender_map : List (String × String) :=
  [("F", "FEMALE"), ("M", "MALE"), ("O", "OTHER"),
   ("f", "FEMALE"), ("m", "MALE"), ("o", "OTHER"),
   ("Female", "FEMALE"), ("Male", "MALE"),
   ("FEMALE", "FEMALE"), ("MALE", "MALE"), ("OTHER", "OTHER")]

def normalizeGender (s : String) : String :=
  match gender_map.find? (fun p => p.1 == s) with
  | some p => p.2
  | none => s

/-- Series.replace(gender_map) on one cell: only string cells equal to a
table key are replaced; everything else passes through unchanged. -/
def applyGenderMap : Value → Value
  | .str s => .str (normalizeGender s)
  | v => v

def normalizeGenderCol (df : DF) (c : String) : DF :=
  { df with rows := df.rows.map (fun r => setVal r c (applyGenderMap (getVal r c))) }

/-- df.loc[df[target].isna() & df[src].notna(), target] = df[src]:
per-row coalesce of src into target. -/
def coalesceInto (df : DF) (target src : String) : DF :=
  { df with rows := df.rows.map (fun r =>
      if (getVal r target).isNull && !(getVal r src).isNull
      then setVal r target (getVal r src) else r) }

def column_mapping : List (String × String) :=
  [("resident_id", "residentId"), ("HH ID", "hhId"), ("Name of citizen", "name"),
   ("UID", "uid"), ("DOB", "dob"), ("Gender", "gender"),
   ("Mobile Number", "mobileNumber"), ("Dist Name", "distName"),
   ("Mandal Name", "mandalName"), ("Mandal Code", "mandalCode"),
   ("Sec name", "secName"), ("Sec Code", "secCode"), ("R/U", "ruralUrban"),
   ("Cluster name", "clusterName"), ("Qualification", "qualification"),
   ("Occupation", "occupation"), ("Caste", "caste"), ("Sub caste", "subCaste"),
   ("caste cat", "casteCategory"), ("HOF/Member", "hofMember"),
   ("Door Number", "doorNumber"), ("Address as per ekyc", "addressEkyc"),
   ("Address as per HH data", "addressHh"), ("health_id", "healthId"),
   ("citizen_mobile", "citizenMobile"), ("age", "age"), ("phc_name", "phcName")]

/-- standardize_column_names: if both gender and Gender exist, normalize
both through the synonym table, fill Gender from gender where missing and
drop gender; then rename every column through column_mapping (renaming
only the present ones, which renameDF's lookup realises). -/
def standardize_column_names (df : DF) : DF :=
  let df1 :=
    if df.cols.contains "gender" && df.cols.contains "Gender" then
      dropCol
        (coalesceInto (normalizeGenderCol (normalizeGenderCol df "gender") "Gender")
          "Gender" "gender")
        "gender"
    else df
  renameDF df1 column_mapping

def required_fields : List String := ["residentId", "hhId", "name"]

/-- validate_required_fields: exits (false) exactly when a required field
is missing from the columns.  Rows with missing values in a present
required column only produce a printed warning and do not fail. -/
def validate_required_fields (df : DF) : Bool :=
  required_fields.all (fun f => df.cols.contains f)

def duplicate_pairs : List (String × String) :=
  [("distName", "district_name"), ("mandalName", "mandal_name"),
   ("secName", "sec_name"), ("subCaste", "subcaste"), ("doorNumber", "door_no")]

/-- deduplicate_columns: collect snake_case duplicates to drop, merge the
gender-like columns (normalize all of them, make sure one is literally
named gender, coalesce the others into it and mark them dropped), rename
caste_category, mark citizen_name dropped, then drop everything marked
that still exists. -/
def deduplicate_columns (df : DF) : DF :=
  let drops1 := duplicate_pairs.filterMap (fun p =>
    if df.cols.contains p.1 && df.cols.contains p.2 then some p.2 else none)
  let gcols0 := df.cols.filter (fun c => pyLower c == "gender" || c == "gender.1")
  let step2 : DF × List String :=
    if 1 < gcols0.length then
      let dfa := gcols0.foldl normalizeGenderCol df
      let p : DF × List String :=
        if dfa.cols.contains "gender" then (dfa, gcols0)
        else (renameDF dfa [(gcols0.headI, "gender")], "gender" :: gcols0.tail)
      let others := p.2.filter (fun c => c != "gender")
      (others.foldl (fun d c => coalesceInto d "gender" c) p.1, others)
    else (df, [])
  let df2 := step2.1
  let df3 :=
    if df2.cols.contains "caste_category" then
      renameDF df2 [("caste_category", "casteCategoryDetailed")]
    else df2
  let drops3 :=
    if df3.cols.contains "citizen_name" && df3.cols.contains "name" then ["citizen_name"] else []
  let drops := drops1 ++ step2.2 ++ drops3
  dropCols df3 (drops.filter (fun c => df3.cols.contains c))

def keyValR (r : Row) : Value := getVal r "residentId"

/-- drop_duplicates(subset=['residentId'], keep='first'). -/
def dedupRowsAux (seen : List Value) : List Row → List Row
  | [] => []
  | r :: rs =>
    if seen.contains (keyValR r) then dedupRowsAux seen rs
    else r :: dedupRowsAux (keyValR r :: seen) rs

def remove_duplicates (df : DF) : DF :=
  { df with rows := dedupRowsAux [] df.rows }

/-- Python str.strip(): leading and trailing whitespace removed. -/
def pyStrip (s : String) : String :=
  String.mk (((s.data.dropWhile Char.isWhitespace).reverse.dropWhile
    Char.isWhitespace).reverse)

/-- The pandas '==' '' test together with .str.strip() == '': true exactly
on string cells that are empty or whitespace-only (on non-string cells
.str.strip() yields NaN and both comparisons are False). -/
def isEmptyStrVal : Value → Bool
  | .str s => s == "" || pyStrip s == ""
  | _ => false

/-- select_dtypes(['object']) membership: the column holds a string. -/
def isObjectCol (df : DF) (c : String) : Bool :=
  df.rows.any (fun r => (getVal r c).isStr)

/-- Series.fillna(v) at one row of column c. -/
def fillNA (c : String) (v : Value) (r : Row) : Row :=
  if (getVal r c).isNull then setVal r c v else r

/-- Step 1 of fill_missing_values at one row: a NaN hhId becomes
HH_UNKNOWN_{int(residentId)} (int() raising models as none). -/
def fillHhIdRow (r : Row) : Option Row :=
  if (getVal r "hhId").isNull then
    (coerceKey (getVal r "residentId")).map
      (fun k => setVal r "hhId" (.str ("HH_UNKNOWN_" ++ toString k)))
  else some r

/-- Step 2 of fill_missing_values at one row: a NaN name becomes
UNKNOWN_NAME_{int(residentId)}. -/
def fillNameNullRow (r : Row) : Option Row :=
  if (getVal r "name").isNull then
    (coerceKey (getVal r "residentId")).map
      (fun k => setVal r "name" (.str ("UNKNOWN_NAME_" ++ toString k)))
  else some r

/-- Step 2b of fill_missing_values at one row: an empty or
whitespace-only string name also becomes UNKNOWN_NAME_{int(residentId)}. -/
def fillNameEmptyRow (r : Row) : Option Row :=
  if isEmptyStrVal (getVal r "name") then
    (coerceKey (getVal r "residentId")).map
      (fun k => setVal r "name" (.str ("UNKNOWN_NAME_" ++ toString k)))
  else some r

/-- Step 3 of fill_missing_values: the optional object (textual) columns,
i.e. every non-required column currently holding a string, get their NaNs
filled with the string N/A. -/
def string_columns (df : DF) : List String :=
  df.cols.filter (fun c => !required_fields.contains c && isObjectCol df c)

def fillStringCols (df : DF) : DF :=
  (string_columns df).foldl (fun d c =>
    { d with rows := d.rows.map (fillNA c (.str "N/A")) }) df

/-- Step 4 of fill_missing_values: the numeric (int64/float64) columns
other than residentId get their NaNs filled with 0. -/
def numeric_columns (df : DF) : List String :=
  df.cols.filter (fun c => c != "residentId" && !isObjectCol df c)

def fillNumericCols (df : DF) : DF :=
  (numeric_columns df).foldl (fun d c =>
    { d with rows := d.rows.map (fillNA c (.int 0)) }) df

/-- fill_missing_values: fill NaN hhId with HH_UNKNOWN_{int(residentId)},
NaN name then empty/whitespace name with UNKNOWN_NAME_{int(residentId)},
then fill the remaining object (textual) columns' NaNs with the string
N/A and the numeric columns' NaNs with 0.  Accessing the three required
columns or applying int() to an uncoercible residentId raises, which
aborts the run (none). -/
def fill_missing_values (df : DF) : Option DF :=
  if df.cols.contains "residentId" && df.cols.contains "hhId" && df.cols.contains "name" then
    match optMap fillHhIdRow df.rows with
    | none => none
    | some rows1 =>
      match optMap fillNameNullRow rows1 with
      | none => none
      | some rows2 =>
        match optMap fillNameEmptyRow rows2 with
        | none => none
        | some rows3 =>
          some (fillNumericCols (fillStringCols { df with rows := rows3 }))
  else none

-- ===== Basic lemmas about the embedding =====

theorem getVal_setVal_ne (r : Row) (c f : String) (v : Value) (h : c ≠ f) :
    getVal (setVal r c v) f = getVal r f := by
  induction r with
  | nil => rfl
  | cons p r ih =>
    simp only [setVal, List.map_cons] at ih ⊢
    by_cases hc : p.1 = c
    · simp only [getVal, hc, if_pos rfl]
      rw [if_neg h, if_neg (hc ▸ h)]
      exact ih
    · simp only [getVal, if_neg hc]
      by_cases hf : p.1 = f
      · rw [if_pos hf, if_pos hf]
      · rw [if_neg hf, if_neg hf]
        exact ih

theorem rowNames_setVal (r : Row) (c : String) (v : Value) :
    rowNames (setVal r c v) = rowNames r := by
  induction r with
  | nil => rfl
  | cons p r ih =>
    simp only [setVal, rowNames, List.map_cons] at ih ⊢
    by_cases hc : p.1 = c
    · rw [if_pos hc]
      exact congrArg (p.1 :: ·) ih
    · rw [if_neg hc]
      exact congrArg (p.1 :: ·) ih

theorem getVal_setVal_self (r : Row) (c : String) (v : Value) (h : c ∈ rowNames r) :
    getVal (setVal r c v) c = v := by
  induction r with
  | nil => simp [rowNames] at h
  | cons p r ih =>
    simp only [rowNames, List.map_cons, List.mem_cons] at h
    simp only [setVal, List.map_cons] at ih ⊢
    by_cases hc : p.1 = c
    · simp [getVal, hc]
    · rw [if_neg hc]
      simp only [getVal, if_neg hc]
      rcases h with h | h
      · exact absurd h.symm hc
      · exact ih h

theorem getVal_dropEntry_ne (r : Row) (c f : String) (h : c ≠ f) :
    getVal (r.filter (fun p => p.1 != c)) f = getVal r f := by
  induction r with
  | nil => rfl
  | cons p r ih =>
    by_cases hc : p.1 = c
    · have hb : (p.1 != c) = false := by simp [hc]
      rw [List.filter_cons, hb]
      simp only [Bool.false_eq_true, if_false, getVal, ih]
      rw [if_neg (hc ▸ h)]
    · have hb : (p.1 != c) = true := by simp [hc]
      rw [List.filter_cons, hb]
      simp only [if_true, getVal, ih]

theorem getVal_append_left (r1 r2 : Row) (f : String) (h : f ∈ rowNames r1) :
    getVal (r1 ++ r2) f = getVal r1 f := by
  induction r1 with
  | nil => simp [rowNames] at h
  | cons p r ih =>
    simp only [rowNames, List.map_cons, List.mem_cons] at h
    simp only [List.cons_append, getVal]
    by_cases hf : p.1 = f
    · rw [if_pos hf, if_pos hf]
    · rw [if_neg hf, if_neg hf]
      rcases h with h | h
      · exact absurd h.symm hf
      · exact ih h

theorem getVal_append_right (r1 r2 : Row) (f : String) (h : f ∉ rowNames r1) :
    getVal (r1 ++ r2) f = getVal r2 f := by
  induction r1 with
  | nil => rfl
  | cons p r ih =>
    simp only [rowNames, List.map_cons, List.mem_cons] at h
    push_neg at h
    simp only [List.cons_append, getVal]
    rw [if_neg (Ne.symm h.1)]
    exact ih h.2

theorem getVal_not_mem (r : Row) (f : String) (h : f ∉ rowNames r) :
    getVal r f = Value.null := by
  induction r with
  | nil => rfl
  | cons p r ih =>
    simp only [rowNames, List.map_cons, List.mem_cons] at h
    push_neg at h
    simp only [getVal]
    rw [if_neg (Ne.symm h.1)]
    exact ih h.2

theorem rowNames_filter_ne (r : Row) (c : String) :
    rowNames (r.filter (fun p => p.1 != c)) = (rowNames r).filter (fun c' => c' != c) := by
  induction r with
  | nil => rfl
  | cons p r ih =>
    simp only [rowNames, List.map_cons, List.filter_cons] at ih ⊢
    by_cases hc : p.1 = c
    · have hb : (p.1 != c) = false := by simp [hc]
      rw [hb]
      simpa [hb] using ih
    · have hb : (p.1 != c) = true := by simp [hc]
      rw [hb]
      simpa [hb] using ih

theorem rowNames_fillNA (c : String) (v : Value) (r : Row) :
    rowNames (fillNA c v r) = rowNames r := by
  unfold fillNA
  by_cases h : (getVal r c).isNull = true
  · rw [if_pos h]
    exact rowNames_setVal r c v
  · rw [if_neg h]

theorem getVal_fillNA_ne (c f : String) (v : Value) (r : Row) (h : c ≠ f) :
    getVal (fillNA c v r) f = getVal r f := by
  unfold fillNA
  by_cases hn : (getVal r c).isNull = true
  · rw [if_pos hn]
    exact getVal_setVal_ne r c f v h
  · rw [if_neg hn]

theorem getVal_fillNA_notNull (c' c : String) (v : Value) (r : Row)
    (h : (getVal r c).isNull = false) :
    getVal (fillNA c' v r) c = getVal r c := by
  unfold fillNA
  by_cases hc : c' = c
  · subst hc
    rw [if_neg (by simp [h])]
  · by_cases hn : (getVal r c').isNull = true
    · rw [if_pos hn]
      exact getVal_setVal_ne r c' c v hc
    · rw [if_neg hn]

theorem getVal_fillNA_self (c : String) (v : Value) (r : Row) (hm : c ∈ rowNames r) :
    getVal (fillNA c v r) c = if (getVal r c).isNull then v else getVal r c := by
  unfold fillNA
  by_cases hn : (getVal r c).isNull = true
  · rw [if_pos hn, if_pos hn]
    exact getVal_setVal_self r c v hm
  · rw [if_neg hn, if_neg hn]

theorem foldFill_rowNames (cs : List String) (v : Value) (r : Row) :
    rowNames (cs.foldl (fun r c => fillNA c v r) r) = rowNames r := by
  induction cs generalizing r with
  | nil => rfl
  | cons c cs ih => rw [List.foldl_cons, ih, rowNames_fillNA]

theorem foldFill_getVal_notNull (cs : List String) (v : Value) (c : String) (r : Row)
    (h : (getVal r c).isNull = false) :
    getVal (cs.foldl (fun r c' => fillNA c' v r) r) c = getVal r c := by
  induction cs generalizing r with
  | nil => rfl
  | cons c' cs ih =>
    rw [List.foldl_cons]
    have h1 := getVal_fillNA_notNull c' c v r h
    rw [ih (fillNA c' v r) (h1 ▸ h), h1]

theorem foldFill_getVal_not_mem (cs : List String) (v : Value) (c : String) (r : Row)
    (h : c ∉ cs) :
    getVal (cs.foldl (fun r c' => fillNA c' v r) r) c = getVal r c := by
  induction cs generalizing r with
  | nil => rfl
  | cons c' cs ih =>
    simp only [List.mem_cons] at h
    push_neg at h
    rw [List.foldl_cons, ih (fillNA c' v r) h.2, getVal_fillNA_ne c' c v r (Ne.symm h.1)]

theorem foldFill_getVal_mem (cs : List String) (v : Value) (c : String) (r : Row)
    (hv : v.isNull = false) (hcs : c ∈ cs) (hm : c ∈ rowNames r) :
    getVal (cs.foldl (fun r c' => fillNA c' v r) r) c =
      if (getVal r c).isNull then v else getVal r c := by
  induction cs generalizing r with
  | nil => simp at hcs
  | cons c' cs ih =>
    rw [List.foldl_cons]
    by_cases hn : (getVal r c).isNull = true
    · rw [if_pos hn]
      rcases List.mem_cons.mp hcs with hcc | hmem
      · subst hcc
        have h1 : getVal (fillNA c v r) c = v := by
          rw [getVal_fillNA_self c v r hm, if_pos hn]
        rw [foldFill_getVal_notNull cs v c (fillNA c v r) (by rw [h1]; exact hv), h1]
      · by_cases hcc : c' = c
        · subst hcc
          have h1 : getVal (fillNA c' v r) c' = v := by
            rw [getVal_fillNA_self c' v r hm, if_pos hn]
          rw [foldFill_getVal_notNull cs v c' (fillNA c' v r) (by rw [h1]; exact hv), h1]
        · have h1 := getVal_fillNA_ne c' c v r hcc
          rw [ih (fillNA c' v r) hmem (by rw [rowNames_fillNA]; exact hm), h1, if_pos hn]
    · simp only [Bool.not_eq_true] at hn
      rw [if_neg (by simp [hn])]
      have h1 := getVal_fillNA_notNull c' c v r hn
      rw [foldFill_getVal_notNull cs v c (fillNA c' v r) (h1 ▸ hn), h1]

theorem optMap_length (f : Row → Option Row) (l l' : List Row)
    (h : optMap f l = some l') : l'.length = l.length := by
  induction l generalizing l' with
  | nil =>
    simp only [optMap] at h
    cases h
    rfl
  | cons r rs ih =>
    simp only [optMap] at h
    cases hf : f r with
    | none => rw [hf] at h; simp at h
    | some r' =>
      cases ho : optMap f rs with
      | none => rw [hf, ho] at h; simp at h
      | some rs' =>
        rw [hf, ho] at h
        cases h
        simp [ih rs' ho]

theorem optMap_get (f : Row → Option Row) (l l' : List Row)
    (h : optMap f l = some l') (i : Nat) (hi : i < l.length) (hi' : i < l'.length) :
    f (l.get ⟨i, hi⟩) = some (l'.get ⟨i, hi'⟩) := by
  induction l generalizing l' i with
  | nil => simp at hi
  | cons r rs ih =>
    simp only [optMap] at h
    cases hf : f r with
    | none => rw [hf] at h; simp at h
    | some r' =>
      cases ho : optMap f rs with
      | none => rw [hf, ho] at h; simp at h
      | some rs' =>
        rw [hf, ho] at h
        cases h
        cases i with
        | zero => simpa using hf
        | succ j =>
          simp only [List.get_cons_succ]
          exact ih rs' ho j (Nat.lt_of_succ_lt_succ hi) (Nat.lt_of_succ_lt_succ hi')

theorem optMap_mem (f : Row → Option Row) (l l' : List Row)
    (h : optMap f l = some l') (r' : Row) (hr' : r' ∈ l') :
    ∃ r ∈ l, f r = some r' := by
  induction l generalizing l' with
  | nil =>
    simp only [optMap] at h
    cases h
    simp at hr'
  | cons r rs ih =>
    simp only [optMap] at h
    cases hf : f r with
    | none => rw [hf] at h; simp at h
    | some r0 =>
      cases ho : optMap f rs with
      | none => rw [hf, ho] at h; simp at h
      | some rs' =>
        rw [hf, ho] at h
        cases h
        rcases List.mem_cons.mp hr' with he | hm
        · exact ⟨r, List.mem_cons_self r rs, he ▸ hf⟩
        · rcases ih rs' ho hm with ⟨r1, hr1, hfr1⟩
          exact ⟨r1, List.mem_cons_of_mem r hr1, hfr1⟩

-- ===== Claim C2 =====

/-- Claim C2 as the specification states it: any absent or empty value in
a required field of some row makes the validation step abort (return
false). -/
def claimC2 : Prop := ∀ df : DF,
  (∃ r ∈ df.rows, ∃ f ∈ required_fields,
    (getVal r f).isNull = true ∨ getVal r f = Value.str "") →
  validate_required_fields df = false

def dfC2 : DF :=
  { cols := ["residentId", "hhId", "name"],
    rows := [[("residentId", Value.int 1), ("hhId", Value.null), ("name", Value.str "A")]] }

/-- Claim C2: refuted.  dfC2 carries a null hhId value in its only row,
yet validate_required_fields accepts it, because the source only exits
when a required column is missing and merely prints a warning about
missing values. -/
theorem C2_counterexample : ¬ claimC2 := fun h =>
  absurd (h dfC2 (by decide)) (by decide)

/-- Claim C2 amended: the validation step succeeds iff every required
field is present as a column; it never inspects the rows, so absent or
empty values in a present required column do not abort the run. -/
theorem C2_validator_only_checks_columns :
    (∀ df : DF, validate_required_fields df = true ↔
      ∀ f ∈ required_fields, f ∈ df.cols) ∧
    (∀ (cols : List String) (rows rows' : List Row),
      validate_required_fields ⟨cols, rows⟩ = validate_required_fields ⟨cols, rows'⟩) := by
  constructor
  · intro df
    simp [validate_required_fields, List.all_eq_true, List.elem_eq_mem]
  · intro cols rows rows'
    rfl

/-- Witness for C2's amended theorem at a concrete frame: dfC2 validates
although a required value is null. -/
theorem C2_witness : validate_required_fields dfC2 = true :=
  (C2_validator_only_checks_columns.1 dfC2).mpr (by decide)

-- ===== Claim C7 =====

def genderVocab : List String := ["FEMALE", "MALE", "OTHER"]

def dfC7 : DF :=
  { cols := ["gender", "Gender", "resident_id"],
    rows := [[("gender", Value.str "M"), ("Gender", Value.str "Male"),
              ("resident_id", Value.int 1)]] }

/-- Claim C7: gender normalization is total — every key of the synonym
table maps into the fixed vocabulary {FEMALE, MALE, OTHER}, every other
string passes through unchanged, and the Scenario D frame (gender="M",
Gender="Male" on one row) standardizes to a single gender column holding
MALE. -/
theorem C7_gender_normalization_total :
    (∀ s ∈ gender_map.map (fun p => p.1), normalizeGender s ∈ genderVocab) ∧
    (∀ s : String, s ∉ gender_map.map (fun p => p.1) → normalizeGender s = s) ∧
    (standardize_column_names dfC7).rows.map (fun r => getVal r "gender") =
      [Value.str "MALE"] ∧
    (standardize_column_names dfC7).cols = ["gender", "residentId"] := by
  refine ⟨by decide, ?_, by decide, by decide⟩
  intro s hs
  have hn : gender_map.find? (fun p => p.1 == s) = none := by
    rw [List.find?_eq_none]
    intro p hp
    simp only [beq_iff_eq]
    intro he
    exact hs (he ▸ List.mem_map_of_mem (fun q => q.1) hp)
  unfold normalizeGender
  rw [hn]

/-- Witness for C7 at concrete inputs: a table key and a non-table
string. -/
theorem C7_witness :
    normalizeGender "M" ∈ genderVocab ∧ normalizeGender "Asha" = "Asha" :=
  ⟨C7_gender_normalization_total.1 "M" (by decide),
   C7_gender_normalization_total.2.1 "Asha" (by decide)⟩

-- ===== String suffix lemmas =====

theorem suffix_data_of_append (c s t : String) (h : c ++ s = t) :
    s.data = t.data.drop (t.data.length - s.data.length) := by
  have hd := congrArg String.data h
  rw [String.data_append] at hd
  have hlen := congrArg List.length hd
  rw [List.length_append] at hlen
  have hc : c.data.length = t.data.length - s.data.length := by omega
  have hx := congrArg (List.drop c.data.length) hd
  rw [List.drop_left] at hx
  rw [hc] at hx
  exact hx

theorem append_health_inj {a b : String} (h : a ++ "_health" = b ++ "_health") :
    a = b := by
  have hd := congrArg String.data h
  rw [String.data_append, String.data_append] at hd
  exact String.ext (List.append_cancel_right hd)

theorem ne_append_health_self (c : String) : c ≠ c ++ "_health" := by
  intro h
  have := congrArg String.length h
  rw [String.length_append] at this
  have h7 : ("_health" : String).length = 7 := rfl
  omega

theorem get_congr {α : Type} {l l' : List α} (h : l = l') (i : Nat)
    (h1 : i < l.length) (h2 : i < l'.length) : l.get ⟨i, h1⟩ = l'.get ⟨i, h2⟩ := by
  subst h
  rfl

-- ===== resolveOne lemmas =====

theorem resolveOne_rows_length (df : DF) (c : String) :
    (resolveOne df c).rows.length = df.rows.length := by
  simp only [resolveOne]
  by_cases h : (df.cols.contains c && df.cols.contains (c ++ "_health")) = true
  · rw [if_pos h]
    simp [dropCol]
  · rw [if_neg h]

theorem resolveOne_cols_mono (df : DF) (c f : String) (h : f ∉ df.cols) :
    f ∉ (resolveOne df c).cols := by
  simp only [resolveOne]
  by_cases hcond : (df.cols.contains c && df.cols.contains (c ++ "_health")) = true
  · rw [if_pos hcond]
    simp only [dropCol]
    intro hmem
    exact h (List.mem_of_mem_filter hmem)
  · rw [if_neg hcond]
    exact h

theorem resolveOne_cols_keep (df : DF) (c f : String) (h : f ∈ df.cols)
    (hne : f ≠ c ++ "_health") : f ∈ (resolveOne df c).cols := by
  simp only [resolveOne]
  by_cases hcond : (df.cols.contains c && df.cols.contains (c ++ "_health")) = true
  · rw [if_pos hcond]
    simp only [dropCol]
    exact List.mem_filter.mpr ⟨h, by simp [hne]⟩
  · rw [if_neg hcond]
    exact h

theorem resolveOne_WF (df : DF) (c : String) (h : WF df) : WF (resolveOne df c) := by
  simp only [resolveOne]
  by_cases hcond : (df.cols.contains c && df.cols.contains (c ++ "_health")) = true
  · rw [if_pos hcond]
    intro r hr
    simp only [dropCol, List.mem_map] at hr
    rcases hr with ⟨r1, ⟨r0, hr0, rfl⟩, rfl⟩
    rw [rowNames_filter_ne]
    by_cases hset : ((getVal r0 c).isNull && !(getVal r0 (c ++ "_health")).isNull) = true
    · rw [if_pos hset, rowNames_setVal, h r0 hr0]
      simp [dropCol]
    · rw [if_neg hset, h r0 hr0]
      simp [dropCol]
  · rw [if_neg hcond]
    exact h

theorem resolveOne_getVal_other (df : DF) (c f : String)
    (hf1 : f ≠ c) (hf2 : f ≠ c ++ "_health")
    (i : Nat) (h1 : i < df.rows.length) (h2 : i < (resolveOne df c).rows.length) :
    getVal ((resolveOne df c).rows.get ⟨i, h2⟩) f = getVal (df.rows.get ⟨i, h1⟩) f := by
  by_cases hcond : (df.cols.contains c && df.cols.contains (c ++ "_health")) = true
  · have hrows : (resolveOne df c).rows =
        (df.rows.map (fun r =>
          if ((getVal r c).isNull && !(getVal r (c ++ "_health")).isNull) = true then
            setVal r c (getVal r (c ++ "_health"))
          else r)).map (fun r => r.filter (fun p => p.1 != (c ++ "_health"))) := by
      simp only [resolveOne]
      rw [if_pos hcond]
      simp [dropCol]
    have hlen : i < ((df.rows.map (fun r =>
          if ((getVal r c).isNull && !(getVal r (c ++ "_health")).isNull) = true then
            setVal r c (getVal r (c ++ "_health"))
          else r)).map (fun r => r.filter (fun p => p.1 != (c ++ "_health")))).length := by
      simpa using h1
    rw [get_congr hrows i h2 hlen]
    simp only [List.get_eq_getElem, List.getElem_map]
    rw [getVal_dropEntry_ne _ _ _ (fun he => hf2 he.symm)]
    by_cases hset : ((getVal (df.rows[i]) c).isNull && !(getVal (df.rows[i]) (c ++ "_health")).isNull) = true
    · rw [if_pos hset]
      exact getVal_setVal_ne _ c f _ (fun he => hf1 he.symm)
    · rw [if_neg hset]
  · have hrows : (resolveOne df c).rows = df.rows := by
      simp only [resolveOne]
      rw [if_neg hcond]
    rw [get_congr hrows i h2 h1]

theorem resolveOne_drops (df : DF) (c : String)
    (hc : c ∈ df.cols) (hh : (c ++ "_health") ∈ df.cols) :
    (c ++ "_health") ∉ (resolveOne df c).cols := by
  have hcond : (df.cols.contains c && df.cols.contains (c ++ "_health")) = true := by
    simp [List.elem_eq_mem, hc, hh]
  simp only [resolveOne]
  rw [if_pos hcond]
  simp only [dropCol]
  intro hmem
  have := (List.mem_filter.mp hmem).2
  simp at this

theorem resolveOne_coalesce (df : DF) (c : String) (hwf : WF df)
    (hc : c ∈ df.cols) (hh : (c ++ "_health") ∈ df.cols)
    (i : Nat) (h1 : i < df.rows.length) (h2 : i < (resolveOne df c).rows.length) :
    getVal ((resolveOne df c).rows.get ⟨i, h2⟩) c =
      (if (getVal (df.rows.get ⟨i, h1⟩) c).isNull = true ∧
          (getVal (df.rows.get ⟨i, h1⟩) (c ++ "_health")).isNull = false
       then getVal (df.rows.get ⟨i, h1⟩) (c ++ "_health")
       else getVal (df.rows.get ⟨i, h1⟩) c) := by
  have hcond : (df.cols.contains c && df.cols.contains (c ++ "_health")) = true := by
    simp [List.elem_eq_mem, hc, hh]
  have hrows : (resolveOne df c).rows =
      (df.rows.map (fun r =>
        if ((getVal r c).isNull && !(getVal r (c ++ "_health")).isNull) = true then
          setVal r c (getVal r (c ++ "_health"))
        else r)).map (fun r => r.filter (fun p => p.1 != (c ++ "_health"))) := by
    simp only [resolveOne]
    rw [if_pos hcond]
    simp [dropCol]
  have hlen : i < ((df.rows.map (fun r =>
        if ((getVal r c).isNull && !(getVal r (c ++ "_health")).isNull) = true then
          setVal r c (getVal r (c ++ "_health"))
        else r)).map (fun r => r.filter (fun p => p.1 != (c ++ "_health")))).length := by
    simpa using h1
  rw [get_congr hrows i h2 hlen]
  simp only [List.get_eq_getElem, List.getElem_map]
  rw [getVal_dropEntry_ne _ _ _ (fun he => ne_append_health_self c he.symm)]
  have hmm : c ∈ rowNames (df.rows[i]) := by
    rw [hwf (df.rows[i]) (List.getElem_mem h1)]
    exact hc
  by_cases hset : ((getVal (df.rows[i]) c).isNull && !(getVal (df.rows[i]) (c ++ "_health")).isNull) = true
  · rw [if_pos hset, getVal_setVal_self _ c _ hmm]
    rw [Bool.and_eq_true, Bool.not_eq_true'] at hset
    rw [if_pos ⟨hset.1, hset.2⟩]
  · rw [if_neg hset]
    rw [Bool.and_eq_true, Bool.not_eq_true'] at hset
    rw [if_neg hset]

theorem resolve_fold_rows_length (ov : List String) (df : DF) :
    (resolve_overlapping_columns df ov).rows.length = df.rows.length := by
  induction ov generalizing df with
  | nil => rfl
  | cons c rest ih =>
    show (resolve_overlapping_columns (resolveOne df c) rest).rows.length = _
    rw [ih (resolveOne df c), resolveOne_rows_length]

theorem resolve_fold_cols_mono (ov : List String) (df : DF) (f : String)
    (h : f ∉ df.cols) : f ∉ (resolve_overlapping_columns df ov).cols := by
  induction ov generalizing df with
  | nil => exact h
  | cons c rest ih =>
    exact ih (resolveOne df c) (resolveOne_cols_mono df c f h)

theorem resolve_fold_WF (ov : List String) (df : DF) (h : WF df) :
    WF (resolve_overlapping_columns df ov) := by
  induction ov generalizing df with
  | nil => exact h
  | cons c rest ih =>
    exact ih (resolveOne df c) (resolveOne_WF df c h)

theorem resolve_fold_getVal_other (ov : List String) (df : DF) (f : String)
    (hf : ∀ c ∈ ov, f ≠ c ∧ f ≠ c ++ "_health")
    (i : Nat) (h1 : i < df.rows.length)
    (h2 : i < (resolve_overlapping_columns df ov).rows.length) :
    getVal ((resolve_overlapping_columns df ov).rows.get ⟨i, h2⟩) f =
      getVal (df.rows.get ⟨i, h1⟩) f := by
  induction ov generalizing df with
  | nil => rfl
  | cons c rest ih =>
    have hstep : i < (resolveOne df c).rows.length := by
      rw [resolveOne_rows_length]
      exact h1
    show getVal ((resolve_overlapping_columns (resolveOne df c) rest).rows.get ⟨i, h2⟩) f =
      getVal (df.rows.get ⟨i, h1⟩) f
    rw [ih (resolveOne df c) (fun c' hc' => hf c' (List.mem_cons_of_mem c hc')) hstep h2]
    exact resolveOne_getVal_other df c f (hf c (List.mem_cons_self c rest)).1
      (hf c (List.mem_cons_self c rest)).2 i h1 hstep

/-- Claim C3 as the specification states it: the conflict resolver
substitutes the secondary (health) value whenever the primary value is
absent or the empty string, and always removes the secondary column. -/
def claimC3 : Prop := ∀ (df : DF) (ov : List String) (col : String),
  WF df → ov.Nodup → (∀ c ∈ ov, ∀ c' ∈ ov, c ≠ c' ++ "_health") →
  col ∈ ov → col ∈ df.cols → (col ++ "_health") ∈ df.cols →
  ((col ++ "_health") ∉ (resolve_overlapping_columns df ov).cols) ∧
  ∀ i (h1 : i < df.rows.length)
    (h2 : i < (resolve_overlapping_columns df ov).rows.length),
    getVal ((resolve_overlapping_columns df ov).rows.get ⟨i, h2⟩) col =
      (if (getVal (df.rows.get ⟨i, h1⟩) col).isNull = true ∨
          getVal (df.rows.get ⟨i, h1⟩) col = Value.str ""
       then getVal (df.rows.get ⟨i, h1⟩) (col ++ "_health")
       else getVal (df.rows.get ⟨i, h1⟩) col)

def dfC3 : DF :=
  { cols := ["name", "name_health"],
    rows := [[("name", Value.str ""), ("name_health", Value.str "Asha")]] }

/-- Claim C3: refuted.  On dfC3 the primary name is the empty string and
the health name is Asha; the resolver's mask is isna-based, so the row
keeps the empty string instead of Asha (Scenario A fails on the code). -/
theorem C3_counterexample : ¬ claimC3 := by
  intro h
  have h2 := (h dfC3 ["name"] "name" (by decide) (by decide) (by decide)
    (by decide) (by decide) (by decide)).2 0 (by decide) (by decide)
  exact absurd h2 (by decide)

/-- Claim C3 amended: the resolver substitutes the secondary value only
when the primary value is absent (null) — an empty-string primary value
is kept — and it always removes the secondary column. -/
theorem C3_resolver_fills_only_null (df : DF) (ov : List String) (col : String)
    (hwf : WF df) (hnd : ov.Nodup)
    (hnh : ∀ c ∈ ov, ∀ c' ∈ ov, c ≠ c' ++ "_health")
    (hmem : col ∈ ov) (hc : col ∈ df.cols) (hh : (col ++ "_health") ∈ df.cols) :
    ((col ++ "_health") ∉ (resolve_overlapping_columns df ov).cols) ∧
    (resolve_overlapping_columns df ov).rows.length = df.rows.length ∧
    ∀ i (h1 : i < df.rows.length)
      (h2 : i < (resolve_overlapping_columns df ov).rows.length),
      getVal ((resolve_overlapping_columns df ov).rows.get ⟨i, h2⟩) col =
        (if (getVal (df.rows.get ⟨i, h1⟩) col).isNull = true ∧
            (getVal (df.rows.get ⟨i, h1⟩) (col ++ "_health")).isNull = false
         then getVal (df.rows.get ⟨i, h1⟩) (col ++ "_health")
         else getVal (df.rows.get ⟨i, h1⟩) col) := by
  induction ov generalizing df with
  | nil => simp at hmem
  | cons c0 rest ih =>
    by_cases hcc : col = c0
    · subst hcc
      have hother : ∀ c ∈ rest, col ≠ c ∧ col ≠ c ++ "_health" := by
        intro c hcr
        constructor
        · intro he
          exact (List.nodup_cons.mp hnd).1 (he ▸ hcr)
        · exact hnh col (List.mem_cons_self col rest) c (List.mem_cons_of_mem col hcr)
      refine ⟨?_, ?_, ?_⟩
      · exact resolve_fold_cols_mono rest (resolveOne df col) (col ++ "_health")
          (resolveOne_drops df col hc hh)
      · show (resolve_overlapping_columns (resolveOne df col) rest).rows.length = _
        rw [resolve_fold_rows_length, resolveOne_rows_length]
      · intro i h1 hlen2
        have hstep : i < (resolveOne df col).rows.length := by
          rw [resolveOne_rows_length]
          exact h1
        show getVal ((resolve_overlapping_columns (resolveOne df col) rest).rows.get
          ⟨i, hlen2⟩) col = _
        rw [resolve_fold_getVal_other rest (resolveOne df col) col hother i hstep hlen2]
        exact resolveOne_coalesce df col hwf hc hh i h1 hstep
    · have hrest : col ∈ rest := by
        rcases List.mem_cons.mp hmem with he | hr
        · exact absurd he hcc
        · exact hr
      have hnh0 : col ≠ c0 ++ "_health" :=
        hnh col hmem c0 (List.mem_cons_self c0 rest)
      have hnhh : col ++ "_health" ≠ c0 ++ "_health" := by
        intro he
        exact hcc (append_health_inj he)
      have hnh0h : col ++ "_health" ≠ c0 := by
        intro he
        exact (hnh c0 (List.mem_cons_self c0 rest) col hmem) he.symm
      have hihres := ih (resolveOne df c0) (resolveOne_WF df c0 hwf)
        (List.nodup_cons.mp hnd).2
        (fun c hc1 c' hc2 =>
          hnh c (List.mem_cons_of_mem c0 hc1) c' (List.mem_cons_of_mem c0 hc2))
        hrest
        (resolveOne_cols_keep df c0 col hc hnh0)
        (resolveOne_cols_keep df c0 (col ++ "_health") hh hnhh)
      refine ⟨hihres.1, ?_, ?_⟩
      · show (resolve_overlapping_columns (resolveOne df c0) rest).rows.length = _
        rw [resolve_fold_rows_length, resolveOne_rows_length]
      · intro i h1 hlen2
        have hstep : i < (resolveOne df c0).rows.length := by
          rw [resolveOne_rows_length]
          exact h1
        show getVal ((resolve_overlapping_columns (resolveOne df c0) rest).rows.get
          ⟨i, hlen2⟩) col = _
        rw [hihres.2.2 i hstep hlen2]
        rw [resolveOne_getVal_other df c0 col hcc hnh0 i h1 hstep]
        rw [resolveOne_getVal_other df c0 (col ++ "_health") hnh0h hnhh i h1 hstep]

def dfC3w : DF :=
  { cols := ["name", "name_health"],
    rows := [[("name", Value.null), ("name_health", Value.str "Asha")],
             [("name", Value.str "X"), ("name_health", Value.str "Y")]] }

/-- Witness for C3's amended theorem at a concrete frame: a null primary
is filled from the secondary, a non-null primary survives. -/
theorem C3_witness :
    getVal ((resolve_overlapping_columns dfC3w ["name"]).rows.get ⟨0, by decide⟩) "name" =
      Value.str "Asha" ∧
    getVal ((resolve_overlapping_columns dfC3w ["name"]).rows.get ⟨1, by decide⟩) "name" =
      Value.str "X" := by
  have h0 := (C3_resolver_fills_only_null dfC3w ["name"] "name" (by decide)
    (by decide) (by decide) (by decide) (by decide) (by decide)).2.2 0
    (by decide) (by decide)
  have h1 := (C3_resolver_fills_only_null dfC3w ["name"] "name" (by decide)
    (by decide) (by decide) (by decide) (by decide) (by decide)).2.2 1
    (by decide) (by decide)
  rw [h0, h1]
  exact ⟨by decide, by decide⟩

-- ===== fill_missing_values structural lemmas =====

theorem append_toString_ne_empty (pre : String) (k : Int) (h : 0 < pre.length) :
    pre ++ toString k ≠ "" := by
  intro he
  have h1 := congrArg String.length he
  rw [String.length_append] at h1
  have h0 : ("" : String).length = 0 := rfl
  omega

theorem fillReq_cases (target pre : String) (cond : Row → Bool) (r r' : Row)
    (h : (if cond r then (coerceKey (getVal r "residentId")).map
      (fun k => setVal r target (.str (pre ++ toString k))) else some r) = some r') :
    (cond r = false ∧ r' = r) ∨
    (cond r = true ∧ ∃ k, coerceKey (getVal r "residentId") = some k ∧
      r' = setVal r target (.str (pre ++ toString k))) := by
  by_cases hc : cond r = true
  · rw [if_pos hc] at h
    cases hk : coerceKey (getVal r "residentId") with
    | none => rw [hk] at h; simp at h
    | some k =>
      rw [hk] at h
      simp only [Option.map_some', Option.some.injEq] at h
      exact Or.inr ⟨hc, k, rfl, h.symm⟩
  · rw [if_neg hc] at h
    simp only [Option.some.injEq] at h
    exact Or.inl ⟨Bool.not_eq_true _ ▸ hc, h.symm⟩

theorem fillReq_names (target pre : String) (cond : Row → Bool) (r r' : Row)
    (h : (if cond r then (coerceKey (getVal r "residentId")).map
      (fun k => setVal r target (.str (pre ++ toString k))) else some r) = some r') :
    rowNames r' = rowNames r := by
  rcases fillReq_cases target pre cond r r' h with ⟨_, rfl⟩ | ⟨_, k, _, rfl⟩
  · rfl
  · exact rowNames_setVal r target _

theorem fillReq_getVal_ne (target pre : String) (cond : Row → Bool) (r r' : Row)
    (h : (if cond r then (coerceKey (getVal r "residentId")).map
      (fun k => setVal r target (.str (pre ++ toString k))) else some r) = some r')
    (c : String) (hcne : target ≠ c) : getVal r' c = getVal r c := by
  rcases fillReq_cases target pre cond r r' h with ⟨_, rfl⟩ | ⟨_, k, _, rfl⟩
  · rfl
  · exact getVal_setVal_ne r target c _ hcne

theorem fillReq_target_preserve_notNull (target pre : String) (cond : Row → Bool)
    (r r' : Row)
    (h : (if cond r then (coerceKey (getVal r "residentId")).map
      (fun k => setVal r target (.str (pre ++ toString k))) else some r) = some r')
    (hm : target ∈ rowNames r) (hnn : (getVal r target).isNull = false) :
    (getVal r' target).isNull = false := by
  rcases fillReq_cases target pre cond r r' h with ⟨_, rfl⟩ | ⟨_, k, _, rfl⟩
  · exact hnn
  · rw [getVal_setVal_self r target _ hm]
    rfl

theorem fillReq_target_of_cond_true (target pre : String) (cond : Row → Bool)
    (r r' : Row)
    (h : (if cond r then (coerceKey (getVal r "residentId")).map
      (fun k => setVal r target (.str (pre ++ toString k))) else some r) = some r')
    (hc : cond r = true) (hm : target ∈ rowNames r) :
    ∃ k, coerceKey (getVal r "residentId") = some k ∧
      getVal r' target = .str (pre ++ toString k) := by
  rcases fillReq_cases target pre cond r r' h with ⟨hf, rfl⟩ | ⟨_, k, hk, rfl⟩
  · rw [hf] at hc; exact absurd hc (by simp)
  · exact ⟨k, hk, getVal_setVal_self r target _ hm⟩

theorem fillReq_target_of_cond_false (target pre : String) (cond : Row → Bool)
    (r r' : Row)
    (h : (if cond r then (coerceKey (getVal r "residentId")).map
      (fun k => setVal r target (.str (pre ++ toString k))) else some r) = some r')
    (hc : cond r = false) : getVal r' target = getVal r target := by
  rcases fillReq_cases target pre cond r r' h with ⟨_, rfl⟩ | ⟨ht, k, _, rfl⟩
  · rfl
  · rw [ht] at hc; exact absurd hc (by simp)

theorem isEmptyStrVal_false_ne_empty (v : Value) (h : isEmptyStrVal v = false) :
    v ≠ Value.str "" := by
  intro he
  subst he
  simp [isEmptyStrVal] at h

theorem fill_anatomy (df df' : DF) (h : fill_missing_values df = some df') :
    ∃ rows1 rows2 rows3,
      optMap fillHhIdRow df.rows = some rows1 ∧
      optMap fillNameNullRow rows1 = some rows2 ∧
      optMap fillNameEmptyRow rows2 = some rows3 ∧
      df' = fillNumericCols (fillStringCols { df with rows := rows3 }) ∧
      "residentId" ∈ df.cols ∧ "hhId" ∈ df.cols ∧ "name" ∈ df.cols := by
  unfold fill_missing_values at h
  by_cases hcond : (df.cols.contains "residentId" && df.cols.contains "hhId" &&
      df.cols.contains "name") = true
  · rw [if_pos hcond] at h
    simp only [Bool.and_eq_true, List.elem_eq_mem, decide_eq_true_eq] at hcond
    cases h1 : optMap fillHhIdRow df.rows with
    | none => rw [h1] at h; simp at h
    | some rows1 =>
      simp only [h1] at h
      cases h2 : optMap fillNameNullRow rows1 with
      | none => rw [h2] at h; simp at h
      | some rows2 =>
        simp only [h2] at h
        cases h3 : optMap fillNameEmptyRow rows2 with
        | none => rw [h3] at h; simp at h
        | some rows3 =>
          simp only [h3, Option.some.injEq] at h
          exact ⟨rows1, rows2, rows3, rfl, h2, h3, h.symm,
            hcond.1.1, hcond.1.2, hcond.2⟩
  · rw [if_neg hcond] at h
    simp at h

theorem foldColsFillDF (cs : List String) (v : Value) (d : DF) :
    cs.foldl (fun d c => { d with rows := d.rows.map (fillNA c v) }) d =
    { cols := d.cols, rows := d.rows.map (fun r => cs.foldl (fun r c => fillNA c v r) r) } := by
  induction cs generalizing d with
  | nil => simp
  | cons c cs ih =>
    simp only [List.foldl_cons]
    rw [ih { cols := d.cols, rows := d.rows.map (fillNA c v) }]
    simp [List.map_map]

theorem fillStringCols_eq (d : DF) :
    fillStringCols d =
      { cols := d.cols,
        rows := d.rows.map (fun r =>
          (string_columns d).foldl (fun r c => fillNA c (.str "N/A") r) r) } := by
  unfold fillStringCols
  exact foldColsFillDF (string_columns d) (.str "N/A") d

theorem fillNumericCols_eq (d : DF) :
    fillNumericCols d =
      { cols := d.cols,
        rows := d.rows.map (fun r =>
          (numeric_columns d).foldl (fun r c => fillNA c (.int 0) r) r) } := by
  unfold fillNumericCols
  exact foldColsFillDF (numeric_columns d) (.int 0) d

theorem mem_string_columns_iff (d : DF) (c : String) :
    c ∈ string_columns d ↔ c ∈ d.cols ∧ c ∉ required_fields ∧ isObjectCol d c = true := by
  unfold string_columns
  rw [List.mem_filter]
  simp [List.elem_eq_mem]

theorem mem_numeric_columns_iff (d : DF) (c : String) :
    c ∈ numeric_columns d ↔ c ∈ d.cols ∧ c ≠ "residentId" ∧ isObjectCol d c = false := by
  unfold numeric_columns
  rw [List.mem_filter]
  simp

theorem required_not_string_columns (d : DF) (c : String) (hc : c ∈ required_fields) :
    c ∉ string_columns d := by
  intro hmem
  exact ((mem_string_columns_iff d c).mp hmem).2.1 hc

theorem residentId_not_numeric_columns (d : DF) :
    "residentId" ∉ numeric_columns d := by
  intro hmem
  exact ((mem_numeric_columns_iff d "residentId").mp hmem).2.1 rfl

theorem fillHhIdRow_eq (r : Row) : fillHhIdRow r =
    (if (getVal r "hhId").isNull then (coerceKey (getVal r "residentId")).map
      (fun k => setVal r "hhId" (.str ("HH_UNKNOWN_" ++ toString k))) else some r) := rfl

theorem fillNameNullRow_eq (r : Row) : fillNameNullRow r =
    (if (getVal r "name").isNull then (coerceKey (getVal r "residentId")).map
      (fun k => setVal r "name" (.str ("UNKNOWN_NAME_" ++ toString k))) else some r) := rfl

theorem fillNameEmptyRow_eq (r : Row) : fillNameEmptyRow r =
    (if isEmptyStrVal (getVal r "name") then (coerceKey (getVal r "residentId")).map
      (fun k => setVal r "name" (.str ("UNKNOWN_NAME_" ++ toString k))) else some r) := rfl

theorem fillTail_cols (d : DF) : (fillNumericCols (fillStringCols d)).cols = d.cols := by
  rw [fillNumericCols_eq, fillStringCols_eq]

theorem fillTail_len (d : DF) :
    (fillNumericCols (fillStringCols d)).rows.length = d.rows.length := by
  rw [fillNumericCols_eq, fillStringCols_eq]
  simp

theorem fillStringCols_get (d : DF) (i : Nat) (h1 : i < d.rows.length)
    (h4 : i < (fillStringCols d).rows.length) :
    (fillStringCols d).rows.get ⟨i, h4⟩ =
      (string_columns d).foldl (fun r c => fillNA c (.str "N/A") r) (d.rows.get ⟨i, h1⟩) := by
  rw [get_congr (congrArg DF.rows (fillStringCols_eq d)) i h4 (by simpa using h1)]
  simp only [List.get_eq_getElem, List.getElem_map]

theorem fillNumericCols_get (d : DF) (i : Nat) (h1 : i < d.rows.length)
    (h5 : i < (fillNumericCols d).rows.length) :
    (fillNumericCols d).rows.get ⟨i, h5⟩ =
      (numeric_columns d).foldl (fun r c => fillNA c (.int 0) r) (d.rows.get ⟨i, h1⟩) := by
  rw [get_congr (congrArg DF.rows (fillNumericCols_eq d)) i h5 (by simpa using h1)]
  simp only [List.get_eq_getElem, List.getElem_map]

theorem fill_len (df df' : DF) (h : fill_missing_values df = some df') :
    df'.rows.length = df.rows.length := by
  obtain ⟨rows1, rows2, rows3, h1, h2, h3, rfl, -⟩ := fill_anatomy df df' h
  rw [fillTail_len]
  show rows3.length = _
  rw [optMap_length _ _ _ h3, optMap_length _ _ _ h2, optMap_length _ _ _ h1]

theorem fill_cols (df df' : DF) (h : fill_missing_values df = some df') :
    df'.cols = df.cols := by
  obtain ⟨rows1, rows2, rows3, h1, h2, h3, rfl, -⟩ := fill_anatomy df df' h
  rw [fillTail_cols]

theorem fill_pos_decompose (df df' : DF) (h : fill_missing_values df = some df')
    (i : Nat) (h1 : i < df.rows.length) :
    ∃ (rows3 : List Row) (r1 r2 : Row) (h3 : i < rows3.length),
      fillHhIdRow (df.rows.get ⟨i, h1⟩) = some r1 ∧
      fillNameNullRow r1 = some r2 ∧
      fillNameEmptyRow r2 = some (rows3.get ⟨i, h3⟩) ∧
      df' = fillNumericCols (fillStringCols { cols := df.cols, rows := rows3 }) ∧
      rows3.length = df.rows.length ∧
      "residentId" ∈ df.cols ∧ "hhId" ∈ df.cols ∧ "name" ∈ df.cols := by
  obtain ⟨rows1, rows2, rows3, ha1, ha2, ha3, hdf, hm1, hm2, hm3⟩ := fill_anatomy df df' h
  have hl1 : rows1.length = df.rows.length := optMap_length _ _ _ ha1
  have hl2 : rows2.length = rows1.length := optMap_length _ _ _ ha2
  have hl3 : rows3.length = rows2.length := optMap_length _ _ _ ha3
  have hi1 : i < rows1.length := by omega
  have hi2 : i < rows2.length := by omega
  have hi3 : i < rows3.length := by omega
  refine ⟨rows3, rows1.get ⟨i, hi1⟩, rows2.get ⟨i, hi2⟩, hi3, ?_, ?_, ?_, hdf, by omega,
    hm1, hm2, hm3⟩
  · exact optMap_get _ _ _ ha1 i h1 hi1
  · exact optMap_get _ _ _ ha2 i hi1 hi2
  · exact optMap_get _ _ _ ha3 i hi2 hi3

theorem isInt_notNull (v : Value) (h : v.isInt = true) : v.isNull = false := by
  cases v <;> simp_all [Value.isInt, Value.isNull]

theorem any_getVal_map (l : List Row) (c : String) :
    l.any (fun r => (getVal r c).isStr) = (l.map (fun r => getVal r c)).any Value.isStr := by
  induction l with
  | nil => rfl
  | cons r rs ih => simp [List.any_cons, ih]

theorem isObjectCol_congr (d d' : DF) (c : String)
    (hlen : d'.rows.length = d.rows.length)
    (hvals : ∀ i (hx : i < d.rows.length) (hy : i < d'.rows.length),
      getVal (d'.rows.get ⟨i, hy⟩) c = getVal (d.rows.get ⟨i, hx⟩) c) :
    isObjectCol d' c = isObjectCol d c := by
  have hmap : d'.rows.map (fun r => getVal r c) = d.rows.map (fun r => getVal r c) := by
    apply List.ext_getElem (by simpa using hlen)
    intro i hx hy
    simp only [List.getElem_map]
    exact hvals i (by simpa using hy) (by simpa using hx)
  unfold isObjectCol
  rw [any_getVal_map d'.rows c, any_getVal_map d.rows c, hmap]

theorem fillHhIdRow_hhId_notNull (r r' : Row) (h : fillHhIdRow r = some r')
    (hm : "hhId" ∈ rowNames r) : (getVal r' "hhId").isNull = false := by
  rw [fillHhIdRow_eq] at h
  rcases fillReq_cases "hhId" "HH_UNKNOWN_" (fun r => (getVal r "hhId").isNull) r r' h with
    ⟨hc, rfl⟩ | ⟨_, k, _, rfl⟩
  · exact hc
  · rw [getVal_setVal_self r _ _ hm]
    rfl

theorem fillNameNullRow_name_notNull (r r' : Row) (h : fillNameNullRow r = some r')
    (hm : "name" ∈ rowNames r) : (getVal r' "name").isNull = false := by
  rw [fillNameNullRow_eq] at h
  rcases fillReq_cases "name" "UNKNOWN_NAME_" (fun r => (getVal r "name").isNull) r r' h with
    ⟨hc, rfl⟩ | ⟨_, k, _, rfl⟩
  · exact hc
  · rw [getVal_setVal_self r _ _ hm]
    rfl

theorem fillNameEmptyRow_name_notNull (r r' : Row) (h : fillNameEmptyRow r = some r')
    (hm : "name" ∈ rowNames r) (hnn : (getVal r "name").isNull = false) :
    (getVal r' "name").isNull = false := by
  rw [fillNameEmptyRow_eq] at h
  exact fillReq_target_preserve_notNull "name" "UNKNOWN_NAME_"
    (fun r => isEmptyStrVal (getVal r "name")) r r' h hm hnn

theorem fillNameEmptyRow_name_ne_empty (r r' : Row) (h : fillNameEmptyRow r = some r')
    (hm : "name" ∈ rowNames r) : getVal r' "name" ≠ Value.str "" := by
  rw [fillNameEmptyRow_eq] at h
  rcases fillReq_cases "name" "UNKNOWN_NAME_"
      (fun r => isEmptyStrVal (getVal r "name")) r r' h with ⟨hc, rfl⟩ | ⟨_, k, _, rfl⟩
  · exact isEmptyStrVal_false_ne_empty _ hc
  · rw [getVal_setVal_self r _ _ hm]
    intro he
    exact append_toString_ne_empty "UNKNOWN_NAME_" k (by decide) (by injection he)

theorem fillSteps_getVal_ne (r0 r1 r2 r3 : Row)
    (hf1 : fillHhIdRow r0 = some r1) (hf2 : fillNameNullRow r1 = some r2)
    (hf3 : fillNameEmptyRow r2 = some r3)
    (c : String) (hc1 : c ≠ "hhId") (hc2 : c ≠ "name") : getVal r3 c = getVal r0 c := by
  rw [fillHhIdRow_eq] at hf1
  rw [fillNameNullRow_eq] at hf2
  rw [fillNameEmptyRow_eq] at hf3
  rw [fillReq_getVal_ne "name" "UNKNOWN_NAME_"
      (fun r => isEmptyStrVal (getVal r "name")) r2 r3 hf3 c (Ne.symm hc2),
    fillReq_getVal_ne "name" "UNKNOWN_NAME_"
      (fun r => (getVal r "name").isNull) r1 r2 hf2 c (Ne.symm hc2),
    fillReq_getVal_ne "hhId" "HH_UNKNOWN_"
      (fun r => (getVal r "hhId").isNull) r0 r1 hf1 c (Ne.symm hc1)]

theorem fillSteps_names (r0 r1 r2 r3 : Row)
    (hf1 : fillHhIdRow r0 = some r1) (hf2 : fillNameNullRow r1 = some r2)
    (hf3 : fillNameEmptyRow r2 = some r3) : rowNames r3 = rowNames r0 := by
  rw [fillHhIdRow_eq] at hf1
  rw [fillNameNullRow_eq] at hf2
  rw [fillNameEmptyRow_eq] at hf3
  rw [fillReq_names "name" "UNKNOWN_NAME_"
      (fun r => isEmptyStrVal (getVal r "name")) r2 r3 hf3,
    fillReq_names "name" "UNKNOWN_NAME_"
      (fun r => (getVal r "name").isNull) r1 r2 hf2,
    fillReq_names "hhId" "HH_UNKNOWN_"
      (fun r => (getVal r "hhId").isNull) r0 r1 hf1]

-- ===== Claim C1 =====

def dfC1 : DF :=
  { cols := ["residentId", "hhId", "name"],
    rows := [[("residentId", Value.int 1), ("hhId", Value.str ""),
              ("name", Value.str "Bob")]] }

/-- Claim C1 as the specification states it: after the Completeness
Filler, every required field of every row is neither null nor the empty
string. -/
def claimC1 : Prop := ∀ (df df' : DF), fill_missing_values df = some df' → WF df →
  (∀ r ∈ df.rows, (getVal r "residentId").isInt = true) →
  ∀ r' ∈ df'.rows, ∀ f ∈ required_fields,
    (getVal r' f).isNull = false ∧ getVal r' f ≠ Value.str ""

/-- Claim C1: refuted.  dfC1's only row has hhId = "", and
fill_missing_values returns it unchanged: the filler replaces null hhId
values but never empty-string hhId values. -/
theorem C1_counterexample : ¬ claimC1 := by
  intro h
  have h2 := h dfC1 dfC1 (by decide) (by decide) (by decide)
    [("residentId", Value.int 1), ("hhId", Value.str ""), ("name", Value.str "Bob")]
    (by decide) "hhId" (by decide)
  exact absurd h2.2 (by decide)

/-- Claim C1 amended: after the Completeness Filler succeeds on a
well-formed frame whose rows carry integer keys, every row has an integer
residentId, a non-null hhId, and a non-null, non-empty-string name; a
pre-existing empty-string hhId, however, survives the filler. -/
theorem C1_fill_required (df df' : DF) (h : fill_missing_values df = some df')
    (hwf : WF df) (hkey : ∀ r ∈ df.rows, (getVal r "residentId").isInt = true) :
    ∀ r' ∈ df'.rows,
      (getVal r' "residentId").isInt = true ∧
      (getVal r' "hhId").isNull = false ∧
      (getVal r' "name").isNull = false ∧
      getVal r' "name" ≠ Value.str "" := by
  intro r' hr'
  obtain ⟨⟨i, h2⟩, rfl⟩ := List.mem_iff_get.mp hr'
  have h1 : i < df.rows.length := by
    have := fill_len df df' h
    omega
  obtain ⟨rows3, r1, r2, h3, hf1, hf2, hf3, hdf, hlen3, hm1, hm2, hm3⟩ :=
    fill_pos_decompose df df' h i h1
  have hn0 : rowNames (df.rows.get ⟨i, h1⟩) = df.cols :=
    hwf (df.rows.get ⟨i, h1⟩) (df.rows.get_mem _ _)
  have hn1 : rowNames r1 = rowNames (df.rows.get ⟨i, h1⟩) := by
    rw [fillHhIdRow_eq] at hf1
    exact fillReq_names "hhId" "HH_UNKNOWN_"
      (fun r => (getVal r "hhId").isNull) _ _ hf1
  have hn2 : rowNames r2 = rowNames r1 := by
    rw [fillNameNullRow_eq] at hf2
    exact fillReq_names "name" "UNKNOWN_NAME_"
      (fun r => (getVal r "name").isNull) _ _ hf2
  -- hhId is non-null from step 1 on
  have hhh1 : (getVal r1 "hhId").isNull = false :=
    fillHhIdRow_hhId_notNull _ _ hf1 (by rw [hn0]; exact hm2)
  have hhh2 : getVal r2 "hhId" = getVal r1 "hhId" := by
    rw [fillNameNullRow_eq] at hf2
    exact fillReq_getVal_ne "name" "UNKNOWN_NAME_"
      (fun r => (getVal r "name").isNull) _ _ hf2 "hhId" (by decide)
  have hhh3 : getVal (rows3.get ⟨i, h3⟩) "hhId" = getVal r2 "hhId" := by
    rw [fillNameEmptyRow_eq] at hf3
    exact fillReq_getVal_ne "name" "UNKNOWN_NAME_"
      (fun r => isEmptyStrVal (getVal r "name")) _ _ hf3 "hhId" (by decide)
  have hhhF : (getVal (rows3.get ⟨i, h3⟩) "hhId").isNull = false := by
    rw [hhh3, hhh2]
    exact hhh1
  -- name is non-null and not the empty string from steps 2 and 2b on
  have hnm2 : (getVal r2 "name").isNull = false :=
    fillNameNullRow_name_notNull _ _ hf2 (by rw [hn1, hn0]; exact hm3)
  have hnm3 : (getVal (rows3.get ⟨i, h3⟩) "name").isNull = false :=
    fillNameEmptyRow_name_notNull _ _ hf3 (by rw [hn2, hn1, hn0]; exact hm3) hnm2
  have hnmE : getVal (rows3.get ⟨i, h3⟩) "name" ≠ Value.str "" :=
    fillNameEmptyRow_name_ne_empty _ _ hf3 (by rw [hn2, hn1, hn0]; exact hm3)
  -- residentId is untouched by steps 1-2b
  have hkey3 : getVal (rows3.get ⟨i, h3⟩) "residentId" =
      getVal (df.rows.get ⟨i, h1⟩) "residentId" :=
    fillSteps_getVal_ne _ _ _ _ hf1 hf2 hf3 "residentId" (by decide) (by decide)
  have hkeyI : (getVal (rows3.get ⟨i, h3⟩) "residentId").isInt = true := by
    rw [hkey3]
    exact hkey _ (df.rows.get_mem _ _)
  -- pass through the two optional-column fills
  subst hdf
  have h4 : i < (fillStringCols { cols := df.cols, rows := rows3 }).rows.length := by
    rw [fillStringCols_eq]
    simpa using h3
  rw [fillNumericCols_get _ i h4 h2, fillStringCols_get _ i h3 h4]
  have hSkey : getVal ((string_columns { cols := df.cols, rows := rows3 }).foldl
      (fun r c => fillNA c (.str "N/A") r) (rows3.get ⟨i, h3⟩)) "residentId" =
      getVal (rows3.get ⟨i, h3⟩) "residentId" :=
    foldFill_getVal_notNull _ _ _ _ (isInt_notNull _ hkeyI)
  have hShh : getVal ((string_columns { cols := df.cols, rows := rows3 }).foldl
      (fun r c => fillNA c (.str "N/A") r) (rows3.get ⟨i, h3⟩)) "hhId" =
      getVal (rows3.get ⟨i, h3⟩) "hhId" :=
    foldFill_getVal_notNull _ _ _ _ hhhF
  have hSnm : getVal ((string_columns { cols := df.cols, rows := rows3 }).foldl
      (fun r c => fillNA c (.str "N/A") r) (rows3.get ⟨i, h3⟩)) "name" =
      getVal (rows3.get ⟨i, h3⟩) "name" :=
    foldFill_getVal_notNull _ _ _ _ hnm3
  refine ⟨?_, ?_, ?_, ?_⟩
  · rw [foldFill_getVal_notNull _ _ _ _ (by rw [hSkey]; exact isInt_notNull _ hkeyI),
      hSkey, hkey3]
    exact hkey _ (df.rows.get_mem _ _)
  · rw [foldFill_getVal_notNull _ _ _ _ (by rw [hShh]; exact hhhF), hShh]
    exact hhhF
  · rw [foldFill_getVal_notNull _ _ _ _ (by rw [hSnm]; exact hnm3), hSnm]
    exact hnm3
  · rw [foldFill_getVal_notNull _ _ _ _ (by rw [hSnm]; exact hnm3), hSnm]
    exact hnmE

def dfC1w : DF :=
  { cols := ["residentId", "hhId", "name"],
    rows := [[("residentId", Value.int 7), ("hhId", Value.null),
              ("name", Value.str " ")]] }

def dfC1wOut : DF :=
  { cols := ["residentId", "hhId", "name"],
    rows := [[("residentId", Value.int 7), ("hhId", Value.str "HH_UNKNOWN_7"),
              ("name", Value.str "UNKNOWN_NAME_7")]] }

/-- Witness for C1's amended theorem at a concrete frame with a null
hhId and a whitespace-only name. -/
theorem C1_witness :
    (getVal ([("residentId", Value.int 7), ("hhId", Value.str "HH_UNKNOWN_7"),
        ("name", Value.str "UNKNOWN_NAME_7")] : Row) "residentId").isInt = true ∧
    (getVal ([("residentId", Value.int 7), ("hhId", Value.str "HH_UNKNOWN_7"),
        ("name", Value.str "UNKNOWN_NAME_7")] : Row) "hhId").isNull = false ∧
    (getVal ([("residentId", Value.int 7), ("hhId", Value.str "HH_UNKNOWN_7"),
        ("name", Value.str "UNKNOWN_NAME_7")] : Row) "name").isNull = false ∧
    getVal ([("residentId", Value.int 7), ("hhId", Value.str "HH_UNKNOWN_7"),
        ("name", Value.str "UNKNOWN_NAME_7")] : Row) "name" ≠ Value.str "" :=
  C1_fill_required dfC1w dfC1wOut (by decide) (by decide) (by decide)
    [("residentId", Value.int 7), ("hhId", Value.str "HH_UNKNOWN_7"),
     ("name", Value.str "UNKNOWN_NAME_7")] (by decide)

-- ===== Claim C9 =====

theorem isEmptyStrVal_true_notNull (v : Value) (h : isEmptyStrVal v = true) :
    v.isNull = false := by
  cases v <;> simp_all [isEmptyStrVal, Value.isNull]

/-- Claim C9: the required-field placeholders are deterministic functions
of the row's integer key — a null hhId becomes HH_UNKNOWN_{key}, a null
or empty/whitespace name becomes UNKNOWN_NAME_{key} — stated positionally
over any successful run of the Completeness Filler on a well-formed
frame. -/
theorem C9_placeholders (df df' : DF) (h : fill_missing_values df = some df')
    (hwf : WF df) :
    df'.rows.length = df.rows.length ∧
    ∀ i (h1 : i < df.rows.length) (h2 : i < df'.rows.length) (k : Int),
      getVal (df.rows.get ⟨i, h1⟩) "residentId" = Value.int k →
      (((getVal (df.rows.get ⟨i, h1⟩) "hhId").isNull = true →
        getVal (df'.rows.get ⟨i, h2⟩) "hhId" =
          Value.str ("HH_UNKNOWN_" ++ toString k)) ∧
      ((getVal (df.rows.get ⟨i, h1⟩) "name").isNull = true →
        getVal (df'.rows.get ⟨i, h2⟩) "name" =
          Value.str ("UNKNOWN_NAME_" ++ toString k)) ∧
      (isEmptyStrVal (getVal (df.rows.get ⟨i, h1⟩) "name") = true →
        getVal (df'.rows.get ⟨i, h2⟩) "name" =
          Value.str ("UNKNOWN_NAME_" ++ toString k))) := by
  refine ⟨fill_len df df' h, ?_⟩
  intro i h1 h2 k hk
  obtain ⟨rows3, r1, r2, h3, hf1, hf2, hf3, hdf, hlen3, hm1, hm2, hm3⟩ :=
    fill_pos_decompose df df' h i h1
  have hn0 : rowNames (df.rows.get ⟨i, h1⟩) = df.cols :=
    hwf (df.rows.get ⟨i, h1⟩) (df.rows.get_mem _ _)
  have hn1 : rowNames r1 = rowNames (df.rows.get ⟨i, h1⟩) := by
    rw [fillHhIdRow_eq] at hf1
    exact fillReq_names "hhId" "HH_UNKNOWN_"
      (fun r => (getVal r "hhId").isNull) _ _ hf1
  have hn2 : rowNames r2 = rowNames r1 := by
    rw [fillNameNullRow_eq] at hf2
    exact fillReq_names "name" "UNKNOWN_NAME_"
      (fun r => (getVal r "name").isNull) _ _ hf2
  -- residentId is preserved through steps 1 and 2
  have hkey1 : getVal r1 "residentId" = getVal (df.rows.get ⟨i, h1⟩) "residentId" := by
    rw [fillHhIdRow_eq] at hf1
    exact fillReq_getVal_ne "hhId" "HH_UNKNOWN_"
      (fun r => (getVal r "hhId").isNull) _ _ hf1 "residentId" (by decide)
  have hkey2 : getVal r2 "residentId" = getVal r1 "residentId" := by
    rw [fillNameNullRow_eq] at hf2
    exact fillReq_getVal_ne "name" "UNKNOWN_NAME_"
      (fun r => (getVal r "name").isNull) _ _ hf2 "residentId" (by decide)
  -- the final tail fills preserve any non-null value
  subst hdf
  have h4 : i < (fillStringCols { cols := df.cols, rows := rows3 }).rows.length := by
    rw [fillStringCols_eq]
    simpa using h3
  have htail : ∀ c : String, (getVal (rows3.get ⟨i, h3⟩) c).isNull = false →
      getVal ((fillNumericCols (fillStringCols
        { cols := df.cols, rows := rows3 })).rows.get ⟨i, h2⟩) c =
      getVal (rows3.get ⟨i, h3⟩) c := by
    intro c hnn
    rw [fillNumericCols_get _ i h4 h2, fillStringCols_get _ i h3 h4]
    have hS : getVal ((string_columns { cols := df.cols, rows := rows3 }).foldl
        (fun r c' => fillNA c' (.str "N/A") r) (rows3.get ⟨i, h3⟩)) c =
        getVal (rows3.get ⟨i, h3⟩) c :=
      foldFill_getVal_notNull _ _ _ _ hnn
    rw [foldFill_getVal_notNull _ _ _ _ (by rw [hS]; exact hnn), hS]
  refine ⟨?_, ?_, ?_⟩
  · -- null hhId
    intro hnull
    rw [fillHhIdRow_eq] at hf1
    obtain ⟨k', hk', hval1⟩ := fillReq_target_of_cond_true "hhId" "HH_UNKNOWN_"
      (fun r => (getVal r "hhId").isNull) _ _ hf1
      (by show (getVal (df.rows.get ⟨i, h1⟩) "hhId").isNull = true; exact hnull)
      (by rw [hn0]; exact hm2)
    rw [hk] at hk'
    simp only [coerceKey, Option.some.injEq] at hk'
    rw [← hk'] at hval1
    have hv2 : getVal r2 "hhId" = getVal r1 "hhId" := by
      rw [fillNameNullRow_eq] at hf2
      exact fillReq_getVal_ne "name" "UNKNOWN_NAME_"
        (fun r => (getVal r "name").isNull) _ _ hf2 "hhId" (by decide)
    have hv3 : getVal (rows3.get ⟨i, h3⟩) "hhId" = getVal r2 "hhId" := by
      rw [fillNameEmptyRow_eq] at hf3
      exact fillReq_getVal_ne "name" "UNKNOWN_NAME_"
        (fun r => isEmptyStrVal (getVal r "name")) _ _ hf3 "hhId" (by decide)
    rw [htail "hhId" (by rw [hv3, hv2, hval1]; rfl), hv3, hv2, hval1]
  · -- null name
    intro hnull
    have hname1 : getVal r1 "name" = getVal (df.rows.get ⟨i, h1⟩) "name" := by
      rw [fillHhIdRow_eq] at hf1
      exact fillReq_getVal_ne "hhId" "HH_UNKNOWN_"
        (fun r => (getVal r "hhId").isNull) _ _ hf1 "name" (by decide)
    rw [fillNameNullRow_eq] at hf2
    obtain ⟨k', hk', hval2⟩ := fillReq_target_of_cond_true "name" "UNKNOWN_NAME_"
      (fun r => (getVal r "name").isNull) _ _ hf2
      (by show (getVal r1 "name").isNull = true; rw [hname1]; exact hnull)
      (by rw [hn1, hn0]; exact hm3)
    rw [hkey1, hk] at hk'
    simp only [coerceKey, Option.some.injEq] at hk'
    rw [← hk'] at hval2
    have hkeyr2 : getVal r2 "residentId" = Value.int k := by
      rw [hkey2, hkey1, hk]
    rw [fillNameEmptyRow_eq] at hf3
    by_cases hc3 : isEmptyStrVal (getVal r2 "name") = true
    · obtain ⟨k2, hk2, hval3⟩ := fillReq_target_of_cond_true "name" "UNKNOWN_NAME_"
        (fun r => isEmptyStrVal (getVal r "name")) _ _ hf3
        (by show isEmptyStrVal (getVal r2 "name") = true; exact hc3)
        (by rw [hn2, hn1, hn0]; exact hm3)
      rw [hkeyr2] at hk2
      simp only [coerceKey, Option.some.injEq] at hk2
      rw [← hk2] at hval3
      rw [htail "name" (by rw [hval3]; rfl), hval3]
    · have hval3 : getVal (rows3.get ⟨i, h3⟩) "name" = getVal r2 "name" :=
        fillReq_target_of_cond_false "name" "UNKNOWN_NAME_"
          (fun r => isEmptyStrVal (getVal r "name")) _ _ hf3
          (by show isEmptyStrVal (getVal r2 "name") = false
              exact Bool.not_eq_true _ ▸ hc3)
      rw [htail "name" (by rw [hval3, hval2]; rfl), hval3, hval2]
  · -- empty-string name
    intro hemp
    have hname1 : getVal r1 "name" = getVal (df.rows.get ⟨i, h1⟩) "name" := by
      rw [fillHhIdRow_eq] at hf1
      exact fillReq_getVal_ne "hhId" "HH_UNKNOWN_"
        (fun r => (getVal r "hhId").isNull) _ _ hf1 "name" (by decide)
    have hname2 : getVal r2 "name" = getVal r1 "name" := by
      rw [fillNameNullRow_eq] at hf2
      exact fillReq_target_of_cond_false "name" "UNKNOWN_NAME_"
        (fun r => (getVal r "name").isNull) _ _ hf2
        (by show (getVal r1 "name").isNull = false
            rw [hname1]
            exact isEmptyStrVal_true_notNull _ hemp)
    have hkeyr2 : getVal r2 "residentId" = Value.int k := by
      rw [hkey2, hkey1, hk]
    rw [fillNameEmptyRow_eq] at hf3
    obtain ⟨k2, hk2, hval3⟩ := fillReq_target_of_cond_true "name" "UNKNOWN_NAME_"
      (fun r => isEmptyStrVal (getVal r "name")) _ _ hf3
      (by show isEmptyStrVal (getVal r2 "name") = true
          rw [hname2, hname1]
          exact hemp)
      (by rw [hn2, hn1, hn0]; exact hm3)
    rw [hkeyr2] at hk2
    simp only [coerceKey, Option.some.injEq] at hk2
    rw [← hk2] at hval3
    rw [htail "name" (by rw [hval3]; rfl), hval3]

def dfC9 : DF :=
  { cols := ["residentId", "hhId", "name"],
    rows := [[("residentId", Value.int 2), ("hhId", Value.str "H"),
              ("name", Value.null)]] }

def dfC9out : DF :=
  { cols := ["residentId", "hhId", "name"],
    rows := [[("residentId", Value.int 2), ("hhId", Value.str "H"),
              ("name", Value.str "UNKNOWN_NAME_2")]] }

/-- Witness for C9 at Scenario B: key 2 with a null name yields the name
UNKNOWN_NAME_2. -/
theorem C9_witness :
    getVal (dfC9out.rows.get ⟨0, by decide⟩) "name" = Value.str "UNKNOWN_NAME_2" := by
  have hx := ((C9_placeholders dfC9 dfC9out (by decide) (by decide)).2 0
    (by decide) (by decide) 2 (by decide)).2.1 (by decide)
  rw [hx]
  decide

-- ===== Claim C4 =====

/-- Claim C4 as the specification states it: non-required textual columns
have absent values replaced with the empty string, numeric columns with
zero. -/
def claimC4 : Prop := ∀ (df df' : DF), fill_missing_values df = some df' → WF df →
  ∀ c ∈ df.cols, c ∉ required_fields →
  ∀ i (h1 : i < df.rows.length) (h2 : i < df'.rows.length),
    (getVal (df.rows.get ⟨i, h1⟩) c).isNull = true →
    getVal (df'.rows.get ⟨i, h2⟩) c =
      (if isObjectCol df c = true then Value.str "" else Value.int 0)

def dfC4 : DF :=
  { cols := ["residentId", "hhId", "name", "note", "age"],
    rows := [[("residentId", Value.int 1), ("hhId", Value.str "H"),
              ("name", Value.str "A"), ("note", Value.null), ("age", Value.null)],
             [("residentId", Value.int 2), ("hhId", Value.str "B"),
              ("name", Value.str "C"), ("note", Value.str "x"), ("age", Value.int 9)]] }

def dfC4out : DF :=
  { cols := ["residentId", "hhId", "name", "note", "age"],
    rows := [[("residentId", Value.int 1), ("hhId", Value.str "H"),
              ("name", Value.str "A"), ("note", Value.str "N/A"), ("age", Value.int 0)],
             [("residentId", Value.int 2), ("hhId", Value.str "B"),
              ("name", Value.str "C"), ("note", Value.str "x"), ("age", Value.int 9)]] }

/-- Claim C4: refuted.  The textual column note of dfC4 has its null
filled with the string N/A, not with the empty string. -/
theorem C4_counterexample : ¬ claimC4 := by
  intro h
  have h2 := h dfC4 dfC4out (by decide) (by decide) "note" (by decide) (by decide)
    0 (by decide) (by decide) (by decide)
  exact absurd h2 (by decide)

/-- Claim C4 amended: for every non-required column, an absent value is
replaced with the string N/A when the column is textual (object dtype)
and with zero when it is numeric. -/
theorem C4_optional_defaults (df df' : DF) (h : fill_missing_values df = some df')
    (hwf : WF df) (c : String) (hc : c ∈ df.cols) (hreq : c ∉ required_fields)
    (i : Nat) (h1 : i < df.rows.length) (h2 : i < df'.rows.length)
    (hnull : (getVal (df.rows.get ⟨i, h1⟩) c).isNull = true) :
    getVal (df'.rows.get ⟨i, h2⟩) c =
      (if isObjectCol df c = true then Value.str "N/A" else Value.int 0) := by
  have hch : c ≠ "hhId" := fun he => hreq (by rw [he]; decide)
  have hcn : c ≠ "name" := fun he => hreq (by rw [he]; decide)
  have hcr : c ≠ "residentId" := fun he => hreq (by rw [he]; decide)
  obtain ⟨rows1, rows2, rows3, ha1, ha2, ha3, hdf, hm1, hm2, hm3⟩ := fill_anatomy df df' h
  have hl1 : rows1.length = df.rows.length := optMap_length _ _ _ ha1
  have hl2 : rows2.length = rows1.length := optMap_length _ _ _ ha2
  have hl3 : rows3.length = rows2.length := optMap_length _ _ _ ha3
  have hi3 : i < rows3.length := by omega
  have hvals : ∀ j (hx : j < df.rows.length) (hy : j < rows3.length),
      getVal (rows3.get ⟨j, hy⟩) c = getVal (df.rows.get ⟨j, hx⟩) c := by
    intro j hx hy
    have hj1 : j < rows1.length := by omega
    have hj2 : j < rows2.length := by omega
    exact fillSteps_getVal_ne _ _ _ _ (optMap_get _ _ _ ha1 j hx hj1)
      (optMap_get _ _ _ ha2 j hj1 hj2) (optMap_get _ _ _ ha3 j hj2 hy) c hch hcn
  have hvals3 : ∀ j (hx : j < df.rows.length)
      (hy : j < (DF.mk df.cols rows3).rows.length),
      getVal ((DF.mk df.cols rows3).rows.get ⟨j, hy⟩) c =
        getVal (df.rows.get ⟨j, hx⟩) c := hvals
  have hobj3 : isObjectCol (DF.mk df.cols rows3) c = isObjectCol df c :=
    isObjectCol_congr df (DF.mk df.cols rows3) c (by show rows3.length = _; omega) hvals3
  have hWF3 : WF (DF.mk df.cols rows3) := by
    intro r hr
    obtain ⟨r2', hr2', hf3'⟩ := optMap_mem _ _ _ ha3 r hr
    obtain ⟨r1', hr1', hf2'⟩ := optMap_mem _ _ _ ha2 r2' hr2'
    obtain ⟨r0', hr0', hf1'⟩ := optMap_mem _ _ _ ha1 r1' hr1'
    show rowNames r = df.cols
    rw [fillSteps_names r0' r1' r2' r hf1' hf2' hf3']
    exact hwf r0' hr0'
  have hnames3 : rowNames (rows3.get ⟨i, hi3⟩) = df.cols :=
    hWF3 (rows3.get ⟨i, hi3⟩) (rows3.get_mem _ _)
  have hval_i : getVal (rows3.get ⟨i, hi3⟩) c = getVal (df.rows.get ⟨i, h1⟩) c :=
    hvals i h1 hi3
  subst hdf
  have h4 : i < (fillStringCols (DF.mk df.cols rows3)).rows.length := by
    rw [fillStringCols_eq]
    simpa using hi3
  rw [fillNumericCols_get _ i h4 h2, fillStringCols_get _ i hi3 h4]
  by_cases hobj : isObjectCol df c = true
  · rw [if_pos hobj]
    have hmemS : c ∈ string_columns (DF.mk df.cols rows3) :=
      (mem_string_columns_iff _ c).mpr ⟨hc, hreq, by rw [hobj3]; exact hobj⟩
    have hmm : c ∈ rowNames (rows3.get ⟨i, hi3⟩) := by
      rw [hnames3]
      exact hc
    have hstr : getVal ((string_columns (DF.mk df.cols rows3)).foldl
        (fun r c' => fillNA c' (.str "N/A") r) (rows3.get ⟨i, hi3⟩)) c =
        Value.str "N/A" := by
      rw [foldFill_getVal_mem _ _ c _ (by decide) hmemS hmm, if_pos (by rw [hval_i]; exact hnull)]
    rw [foldFill_getVal_notNull _ _ _ _ (by rw [hstr]; rfl), hstr]
  · rw [if_neg hobj]
    have hobj' : isObjectCol df c = false := by
      cases hx : isObjectCol df c
      · rfl
      · exact absurd hx hobj
    have hobj3' : isObjectCol (DF.mk df.cols rows3) c = false := by
      rw [hobj3]
      exact hobj'
    have hnotS : c ∉ string_columns (DF.mk df.cols rows3) := by
      intro hmem
      have := ((mem_string_columns_iff _ c).mp hmem).2.2
      rw [hobj3'] at this
      exact Bool.false_ne_true this
    have hpres : getVal ((string_columns (DF.mk df.cols rows3)).foldl
        (fun r c' => fillNA c' (.str "N/A") r) (rows3.get ⟨i, hi3⟩)) c =
        getVal (rows3.get ⟨i, hi3⟩) c :=
      foldFill_getVal_not_mem _ _ _ _ hnotS
    have hlen4 : (fillStringCols (DF.mk df.cols rows3)).rows.length = rows3.length := by
      rw [fillStringCols_eq]
      simp
    have hvals4 : ∀ j (hx : j < (DF.mk df.cols rows3).rows.length)
        (hy : j < (fillStringCols (DF.mk df.cols rows3)).rows.length),
        getVal ((fillStringCols (DF.mk df.cols rows3)).rows.get ⟨j, hy⟩) c =
          getVal ((DF.mk df.cols rows3).rows.get ⟨j, hx⟩) c := by
      intro j hx hy
      rw [fillStringCols_get _ j hx hy]
      exact foldFill_getVal_not_mem _ _ _ _ hnotS
    have hobj4 : isObjectCol (fillStringCols (DF.mk df.cols rows3)) c = false := by
      rw [isObjectCol_congr (DF.mk df.cols rows3) _ c hlen4 hvals4]
      exact hobj3'
    have hcols4 : (fillStringCols (DF.mk df.cols rows3)).cols = df.cols := by
      rw [fillStringCols_eq]
    have hmemN : c ∈ numeric_columns (fillStringCols (DF.mk df.cols rows3)) :=
      (mem_numeric_columns_iff _ c).mpr ⟨by rw [hcols4]; exact hc, hcr, hobj4⟩
    have hmm4 : c ∈ rowNames ((string_columns (DF.mk df.cols rows3)).foldl
        (fun r c' => fillNA c' (.str "N/A") r) (rows3.get ⟨i, hi3⟩)) := by
      rw [foldFill_rowNames, hnames3]
      exact hc
    rw [foldFill_getVal_mem _ _ c _ (by decide) hmemN hmm4,
      if_pos (by rw [hpres, hval_i]; exact hnull)]

/-- Witness for C4's amended theorem: on dfC4 the null note (textual)
becomes N/A and the null age (numeric) becomes 0. -/
theorem C4_witness :
    getVal (dfC4out.rows.get ⟨0, by decide⟩) "note" =
      (if isObjectCol dfC4 "note" = true then Value.str "N/A" else Value.int 0) ∧
    getVal (dfC4out.rows.get ⟨0, by decide⟩) "age" =
      (if isObjectCol dfC4 "age" = true then Value.str "N/A" else Value.int 0) :=
  ⟨C4_optional_defaults dfC4 dfC4out (by decide) (by decide) "note" (by decide)
      (by decide) 0 (by decide) (by decide) (by decide),
   C4_optional_defaults dfC4 dfC4out (by decide) (by decide) "age" (by decide)
      (by decide) 0 (by decide) (by decide) (by decide)⟩

-- ===== Claim C6 =====

theorem dedupRowsAux_nodup (l : List Row) (seen : List Value) :
    ((dedupRowsAux seen l).map keyValR).Nodup ∧
    ∀ v ∈ (dedupRowsAux seen l).map keyValR, v ∉ seen := by
  induction l generalizing seen with
  | nil => exact ⟨List.nodup_nil, by simp [dedupRowsAux]⟩
  | cons r rs ih =>
    simp only [dedupRowsAux]
    by_cases hk : (seen.contains (keyValR r)) = true
    · rw [if_pos hk]
      exact ih seen
    · rw [if_neg hk]
      have hmem : keyValR r ∉ seen := by
        simpa [List.elem_eq_mem] using hk
      obtain ⟨hnd, hs⟩ := ih (keyValR r :: seen)
      constructor
      · simp only [List.map_cons, List.nodup_cons]
        exact ⟨fun hmem2 => (hs _ hmem2) (List.mem_cons_self _ _), hnd⟩
      · intro v hv
        simp only [List.map_cons, List.mem_cons] at hv
        rcases hv with rfl | hv
        · exact hmem
        · exact fun hvseen => (hs v hv) (List.mem_cons_of_mem _ hvseen)

theorem dedupRowsAux_subset (l : List Row) (seen : List Value) :
    ∀ r ∈ dedupRowsAux seen l, r ∈ l := by
  induction l generalizing seen with
  | nil => simp [dedupRowsAux]
  | cons r rs ih =>
    simp only [dedupRowsAux]
    by_cases hk : (seen.contains (keyValR r)) = true
    · rw [if_pos hk]
      exact fun r' hr' => List.mem_cons_of_mem r (ih seen r' hr')
    · rw [if_neg hk]
      intro r' hr'
      rcases List.mem_cons.mp hr' with rfl | hr'
      · exact List.mem_cons_self _ _
      · exact List.mem_cons_of_mem r (ih (keyValR r :: seen) r' hr')

theorem dedupRowsAux_keys_complete (l : List Row) (seen : List Value) :
    ∀ v ∈ l.map keyValR, v ∉ seen → v ∈ (dedupRowsAux seen l).map keyValR := by
  induction l generalizing seen with
  | nil => simp
  | cons r rs ih =>
    intro v hv hvs
    simp only [List.map_cons, List.mem_cons] at hv
    simp only [dedupRowsAux]
    by_cases hk : (seen.contains (keyValR r)) = true
    · rw [if_pos hk]
      have hkm : keyValR r ∈ seen := by
        simpa [List.elem_eq_mem] using hk
      rcases hv with rfl | hv
      · exact absurd hkm hvs
      · exact ih seen v hv hvs
    · rw [if_neg hk]
      simp only [List.map_cons, List.mem_cons]
      by_cases hrv : v = keyValR r
      · exact Or.inl hrv
      · rcases hv with rfl | hv
        · exact absurd rfl hrv
        · exact Or.inr (ih (keyValR r :: seen) v hv (by
            intro hmem
            rcases List.mem_cons.mp hmem with he | hmem2
            · exact hrv he
            · exact hvs hmem2))

theorem dedupRowsAux_find? (l : List Row) (seen : List Value) (v : Value)
    (hv : v ∉ seen) :
    (dedupRowsAux seen l).find? (fun r => keyValR r == v) =
      l.find? (fun r => keyValR r == v) := by
  induction l generalizing seen with
  | nil => rfl
  | cons r rs ih =>
    simp only [dedupRowsAux]
    by_cases hk : (seen.contains (keyValR r)) = true
    · rw [if_pos hk]
      have hkm : keyValR r ∈ seen := by
        simpa [List.elem_eq_mem] using hk
      have hne : (keyValR r == v) = false := by
        simp only [beq_eq_false_iff_ne, ne_eq]
        intro he
        exact hv (he ▸ hkm)
      rw [List.find?_cons, hne]
      exact ih seen hv
    · rw [if_neg hk]
      by_cases hrv : (keyValR r == v) = true
      · rw [List.find?_cons, List.find?_cons, hrv]
      · have hrv' : (keyValR r == v) = false := by
          cases hx : (keyValR r == v)
          · rfl
          · exact absurd hx hrv
        rw [List.find?_cons, List.find?_cons, hrv']
        refine ih (keyValR r :: seen) ?_
        intro hmem
        rcases List.mem_cons.mp hmem with he | hmem2
        · rw [beq_eq_false_iff_ne] at hrv'
          exact hrv' he.symm
        · exact hv hmem2

theorem fill_keys (df df' : DF) (h : fill_missing_values df = some df') :
    df'.rows.map keyValR = df.rows.map keyValR := by
  obtain ⟨rows1, rows2, rows3, ha1, ha2, ha3, hdf, hm1, hm2, hm3⟩ := fill_anatomy df df' h
  have hl1 : rows1.length = df.rows.length := optMap_length _ _ _ ha1
  have hl2 : rows2.length = rows1.length := optMap_length _ _ _ ha2
  have hl3 : rows3.length = rows2.length := optMap_length _ _ _ ha3
  have hlen : df'.rows.length = df.rows.length := fill_len df df' h
  subst hdf
  apply List.ext_getElem (by simpa using hlen)
  intro j hx hy
  simp only [List.getElem_map]
  have hx' : j < (fillNumericCols (fillStringCols (DF.mk df.cols rows3))).rows.length := by
    simpa using hx
  have hy' : j < df.rows.length := by
    simpa using hy
  have hj3 : j < rows3.length := by omega
  have hj1 : j < rows1.length := by omega
  have hj2 : j < rows2.length := by omega
  have h4 : j < (fillStringCols (DF.mk df.cols rows3)).rows.length := by
    rw [fillStringCols_eq]
    simpa using hj3
  show keyValR ((fillNumericCols (fillStringCols (DF.mk df.cols rows3))).rows.get ⟨j, hx'⟩) =
    keyValR (df.rows.get ⟨j, hy'⟩)
  unfold keyValR
  rw [fillNumericCols_get _ j h4 hx', fillStringCols_get _ j hj3 h4]
  rw [foldFill_getVal_not_mem _ _ _ _ (residentId_not_numeric_columns _)]
  rw [foldFill_getVal_not_mem _ _ _ _
    (required_not_string_columns _ "residentId" (by decide))]
  exact fillSteps_getVal_ne _ _ _ _ (optMap_get _ _ _ ha1 j hy' hj1)
    (optMap_get _ _ _ ha2 j hj1 hj2) (optMap_get _ _ _ ha3 j hj2 hj3)
    "residentId" (by decide) (by decide)

/-- Claim C6: row-level deduplication keeps, for each canonical key,
exactly the first row in current order among those sharing that key; the
produced Dataset has pairwise-distinct keys, its rows are rows of the
input, every input key is still present, and the distinctness survives
the Completeness Filler (the final Dataset). -/
theorem C6_dedup_keeps_first (df : DF) :
    ((remove_duplicates df).rows.map keyValR).Nodup ∧
    (∀ r ∈ (remove_duplicates df).rows, r ∈ df.rows) ∧
    (∀ v ∈ df.rows.map keyValR, v ∈ (remove_duplicates df).rows.map keyValR) ∧
    (∀ v : Value, (remove_duplicates df).rows.find? (fun r => keyValR r == v) =
      df.rows.find? (fun r => keyValR r == v)) ∧
    (∀ df', fill_missing_values (remove_duplicates df) = some df' →
      (df'.rows.map keyValR).Nodup) := by
  refine ⟨(dedupRowsAux_nodup df.rows []).1, ?_, ?_, ?_, ?_⟩
  · exact dedupRowsAux_subset df.rows []
  · exact fun v hv => dedupRowsAux_keys_complete df.rows [] v hv (by simp)
  · exact fun v => dedupRowsAux_find? df.rows [] v (by simp)
  · intro df' hfill
    rw [fill_keys _ _ hfill]
    exact (dedupRowsAux_nodup df.rows []).1

def dfC6 : DF :=
  { cols := ["residentId", "hhId", "name"],
    rows := [[("residentId", Value.int 3), ("hhId", Value.str "H1"),
              ("name", Value.str "First")],
             [("residentId", Value.int 3), ("hhId", Value.str "H2"),
              ("name", Value.str "Second")],
             [("residentId", Value.int 4), ("hhId", Value.str "H3"),
              ("name", Value.str "Third")]] }

/-- Witness for C6 at Scenario C: two rows with key 3 — the first one is
kept, keys are distinct, and distinctness survives the filler. -/
theorem C6_witness :
    ((remove_duplicates dfC6).rows.map keyValR).Nodup ∧
    Value.int 3 ∈ (remove_duplicates dfC6).rows.map keyValR ∧
    ((remove_duplicates dfC6).rows.find? (fun r => keyValR r == Value.int 3) =
      dfC6.rows.find? (fun r => keyValR r == Value.int 3)) ∧
    ((remove_duplicates dfC6).rows.map keyValR).Nodup := by
  have h := C6_dedup_keeps_first dfC6
  exact ⟨h.1, h.2.2.1 (Value.int 3) (by decide), h.2.2.2.1 (Value.int 3),
    fill_keys (remove_duplicates dfC6) (remove_duplicates dfC6) (by decide) ▸
      h.2.2.2.2 (remove_duplicates dfC6) (by decide)⟩

-- ===== Claim C5 =====

theorem optMap_none_of_mem (f : Row → Option Row) (l : List Row) (r : Row)
    (hr : r ∈ l) (hf : f r = none) : optMap f l = none := by
  induction l with
  | nil => simp at hr
  | cons r0 rs ih =>
    simp only [optMap]
    rcases List.mem_cons.mp hr with rfl | hmem
    · rw [hf]
    · rw [ih hmem]
      cases f r0 <;> rfl

theorem rowNames_renameRow (m : List (String × String)) (r : Row) :
    rowNames (r.map (fun p => (renameFn m p.1, p.2))) = (rowNames r).map (renameFn m) := by
  simp [rowNames, List.map_map]

theorem renameDF_WF (df : DF) (m : List (String × String)) (h : WF df) :
    WF (renameDF df m) := by
  intro r hr
  simp only [renameDF, List.mem_map] at hr
  rcases hr with ⟨r0, hr0, rfl⟩
  show rowNames (r0.map (fun p => (renameFn m p.1, p.2))) = (renameDF df m).cols
  rw [rowNames_renameRow, h r0 hr0]
  rfl

theorem standardizeKeyCol_WF (df : DF) (c : String) (h : WF df) :
    WF (standardizeKeyCol df c) := by
  unfold standardizeKeyCol
  by_cases he : c = "resident_id"
  · rw [if_pos he]
    exact h
  · rw [if_neg he]
    exact renameDF_WF df _ h

theorem standardizeKeyCol_len (df : DF) (c : String) :
    (standardizeKeyCol df c).rows.length = df.rows.length := by
  unfold standardizeKeyCol
  by_cases he : c = "resident_id"
  · rw [if_pos he]
  · rw [if_neg he]
    simp [renameDF]

theorem standardizeKeyCol_key_mem (df : DF) (c : String) (hc : c ∈ df.cols) :
    "resident_id" ∈ (standardizeKeyCol df c).cols := by
  unfold standardizeKeyCol
  by_cases he : c = "resident_id"
  · rw [if_pos he]
    exact he ▸ hc
  · rw [if_neg he]
    show "resident_id" ∈ df.cols.map (renameFn [(c, "resident_id")])
    have hr : renameFn [(c, "resident_id")] c = "resident_id" := by
      simp [renameFn]
    have hm := List.mem_map_of_mem (renameFn [(c, "resident_id")]) hc
    rw [hr] at hm
    exact hm

theorem find_resident_id_column_mem (df : DF) (c : String)
    (h : find_resident_id_column df = some c) : c ∈ df.cols := by
  unfold find_resident_id_column at h
  have := List.find?_some h
  simpa [List.elem_eq_mem] using this

theorem read_health_data_found (df : DF) (c : String)
    (hf : find_resident_id_column df = some c) :
    read_health_data df =
      (match optMap (fun r => (coerceKey (getVal r "resident_id")).map
          (fun k => setVal r "resident_id" (.int k)))
          (standardizeKeyCol df c).rows with
      | none => none
      | some rows1 => some { cols := (standardizeKeyCol df c).cols, rows := rows1 }) := by
  unfold read_health_data
  rw [hf]

theorem demo_rows_eq (l : List Row) :
    l.filterMap (fun r => (coerceKey (getVal r "resident_id")).map
      (fun k => setVal r "resident_id" (.int k))) =
    (l.filter (fun r => (coerceKey (getVal r "resident_id")).isSome)).map
      (fun r => setVal r "resident_id"
        (.int ((coerceKey (getVal r "resident_id")).getD 0))) := by
  induction l with
  | nil => rfl
  | cons r rs ih =>
    cases hk : coerceKey (getVal r "resident_id") with
    | none => simp [List.filterMap_cons, List.filter_cons, hk, ih]
    | some k => simp [List.filterMap_cons, List.filter_cons, hk, ih]

/-- Claim C5: key normalization is asymmetric by dataset role.  On any
well-formed frame in which a key column is found: the health-side read
aborts the whole run whenever any row's key fails integer coercion, and
when it succeeds every row survives with an integer key; the
demographic-side read never aborts for key values — it drops exactly the
rows whose key fails coercion, keeps all others in order, and every
surviving row carries an integer key. -/
theorem C5_key_policy (df : DF) (c : String) (hwf : WF df)
    (hf : find_resident_id_column df = some c) :
    ((∃ r ∈ (standardizeKeyCol df c).rows,
        coerceKey (getVal r "resident_id") = none) → read_health_data df = none) ∧
    (∀ h', read_health_data df = some h' →
      h'.rows.length = df.rows.length ∧
      ∀ r ∈ h'.rows, (getVal r "resident_id").isInt = true) ∧
    (∃ d', read_demographic_data df = some d' ∧
      d'.rows = ((standardizeKeyCol df c).rows.filter
          (fun r => (coerceKey (getVal r "resident_id")).isSome)).map
        (fun r => setVal r "resident_id"
          (.int ((coerceKey (getVal r "resident_id")).getD 0))) ∧
      ∀ r ∈ d'.rows, (getVal r "resident_id").isInt = true) := by
  have hcc : c ∈ df.cols := find_resident_id_column_mem df c hf
  have hwfs : WF (standardizeKeyCol df c) := standardizeKeyCol_WF df c hwf
  have hkeym : "resident_id" ∈ (standardizeKeyCol df c).cols :=
    standardizeKeyCol_key_mem df c hcc
  refine ⟨?_, ?_, ?_⟩
  · rintro ⟨r, hr, hnone⟩
    rw [read_health_data_found df c hf]
    have hnn : optMap (fun r => (coerceKey (getVal r "resident_id")).map
        (fun k => setVal r "resident_id" (.int k)))
        (standardizeKeyCol df c).rows = none := by
      apply optMap_none_of_mem _ _ r hr
      rw [hnone]
      rfl
    rw [hnn]
  · intro h' hh
    rw [read_health_data_found df c hf] at hh
    cases ho : optMap (fun r => (coerceKey (getVal r "resident_id")).map
        (fun k => setVal r "resident_id" (.int k)))
        (standardizeKeyCol df c).rows with
    | none => rw [ho] at hh; simp at hh
    | some rows1 =>
      simp only [ho, Option.some.injEq] at hh
      subst hh
      constructor
      · show rows1.length = _
        rw [optMap_length _ _ _ ho, standardizeKeyCol_len]
      · intro r hr
        obtain ⟨r0, hr0, hfr0⟩ := optMap_mem _ _ _ ho r hr
        cases hk : coerceKey (getVal r0 "resident_id") with
        | none => rw [hk] at hfr0; simp at hfr0
        | some k =>
          rw [hk] at hfr0
          simp only [Option.map_some', Option.some.injEq] at hfr0
          subst hfr0
          rw [getVal_setVal_self r0 "resident_id" _ (by
            rw [hwfs r0 hr0]
            exact hkeym)]
          rfl
  · refine
      ⟨{ cols := (standardizeKeyCol df c).cols,
         rows := (standardizeKeyCol df c).rows.filterMap (fun r =>
           (coerceKey (getVal r "resident_id")).map
             (fun k => setVal r "resident_id" (.int k))) }, ?_, ?_, ?_⟩
    · unfold read_demographic_data
      rw [hf]
    · exact demo_rows_eq (standardizeKeyCol df c).rows
    · intro r hr
      obtain ⟨r0, hr0, hfr0⟩ := List.mem_filterMap.mp hr
      cases hk : coerceKey (getVal r0 "resident_id") with
      | none => rw [hk] at hfr0; simp at hfr0
      | some k =>
        rw [hk] at hfr0
        simp only [Option.map_some', Option.some.injEq] at hfr0
        subst hfr0
        rw [getVal_setVal_self r0 "resident_id" _ (by
          rw [hwfs r0 hr0]
          exact hkeym)]
        rfl

def dfC5 : DF :=
  { cols := ["resident ID", "name"],
    rows := [[("resident ID", Value.str "10"), ("name", Value.str "A")],
             [("resident ID", Value.str "bad"), ("name", Value.str "B")]] }

/-- Witness for C5 at a concrete frame with one coercible and one
uncoercible key: the health-side read aborts, the demographic-side read
keeps exactly the coercible row with an integer key. -/
theorem C5_witness :
    read_health_data dfC5 = none ∧
    ∃ d', read_demographic_data dfC5 = some d' ∧
      ∀ r ∈ d'.rows, (getVal r "resident_id").isInt = true := by
  have h := C5_key_policy dfC5 "resident ID" (by decide) (by decide)
  obtain ⟨d', hd1, _, hd3⟩ := h.2.2
  exact ⟨h.1 (by decide), d', hd1, hd3⟩

-- ===== merge_dataframes lemmas =====

theorem firstOccurAux_nodup_from (A : List Value) (B seen : List Value)
    (hA : A.Nodup) (hAs : ∀ a ∈ A, a ∉ seen) :
    firstOccurAux seen (A ++ B) = A ++ firstOccurAux (A.reverse ++ seen) B := by
  induction A generalizing seen with
  | nil => simp
  | cons a A' ih =>
    simp only [List.cons_append, firstOccurAux]
    have ha : (seen.contains a) = false := by
      simp only [List.elem_eq_mem, decide_eq_false_iff_not]
      exact hAs a (List.mem_cons_self a A') 
    rw [ha]
    simp only [Bool.false_eq_true, if_false]
    have hrec := ih (a :: seen) (List.nodup_cons.mp hA).2 (by
      intro x hx
      intro hmem
      rcases List.mem_cons.mp hmem with he | hmem2
      · exact (List.nodup_cons.mp hA).1 (he ▸ hx)
      · exact hAs x (List.mem_cons_of_mem a hx) hmem2)
    simp only [List.append_eq]
    rw [hrec]
    have hseen : A'.reverse ++ (a :: seen) = (a :: A').reverse ++ seen := by
      simp
    rw [hseen]

theorem firstOccurAux_filter (B : List Value) (seen : List Value) (hB : B.Nodup) :
    firstOccurAux seen B = B.filter (fun b => !seen.contains b) := by
  induction B generalizing seen with
  | nil => rfl
  | cons b B' ih =>
    simp only [firstOccurAux, List.filter_cons]
    by_cases hb : (seen.contains b) = true
    · rw [hb]
      simp only [if_pos rfl, Bool.not_true, Bool.false_eq_true, if_false]
      exact ih seen (List.nodup_cons.mp hB).2
    · have hb' : (seen.contains b) = false := by
        cases hx : seen.contains b
        · rfl
        · exact absurd hx hb
      rw [hb']
      simp only [Bool.false_eq_true, if_false, Bool.not_false, if_true]
      rw [ih (b :: seen) (List.nodup_cons.mp hB).2]
      congr 1
      apply List.filter_congr
      intro x hx
      have hxb : x ≠ b := fun he => (List.nodup_cons.mp hB).1 (he ▸ hx)
      simp [hxb]

theorem firstOccur_append_nodup (A B : List Value) (hA : A.Nodup) (hB : B.Nodup) :
    firstOccur (A ++ B) = A ++ B.filter (fun b => !A.contains b) := by
  unfold firstOccur
  rw [firstOccurAux_nodup_from A B [] hA (by simp)]
  rw [firstOccurAux_filter B _ hB]
  congr 1
  apply List.filter_congr
  intro b _
  have : ((A.reverse ++ []).contains b) = (A.contains b) := by
    simp [List.elem_eq_mem]
  rw [this]

theorem rowNames_append (r1 r2 : Row) :
    rowNames (r1 ++ r2) = rowNames r1 ++ rowNames r2 := by
  simp [rowNames]

theorem rowNames_tabulate (cols : List String) (g : String → Value) :
    rowNames (cols.map (fun c => (c, g c))) = cols := by
  induction cols with
  | nil => rfl
  | cons c cs ih =>
    simp only [List.map_cons, rowNames] at ih ⊢
    rw [ih]

theorem getVal_tabulate (cols : List String) (g : String → Value) (f : String)
    (hf : f ∈ cols) : getVal (cols.map (fun c => (c, g c))) f = g f := by
  induction cols with
  | nil => simp at hf
  | cons c cs ih =>
    simp only [List.map_cons, getVal]
    by_cases hc : c = f
    · rw [if_pos hc, hc]
    · rw [if_neg hc]
      rcases List.mem_cons.mp hf with he | hmem
      · exact absurd he.symm hc
      · exact ih hmem

theorem append_health_ne_merge (c : String) : c ++ "_health" ≠ "_merge" := by
  intro h
  have := congrArg String.length h
  rw [String.length_append] at this
  have h7 : ("_health" : String).length = 7 := rfl
  have h6 : ("_merge" : String).length = 6 := rfl
  omega

theorem not_merge_healthEntries (demoCols : List String) (r : Row)
    (hr : "_merge" ∉ rowNames r) : "_merge" ∉ rowNames (healthEntries demoCols r) := by
  intro hmem
  unfold healthEntries at hmem
  unfold rowNames at hmem
  obtain ⟨q, hq, hq1⟩ := List.mem_map.mp hmem
  obtain ⟨p, hp, hgp⟩ := List.mem_filterMap.mp hq
  by_cases h1 : p.1 = "resident_id"
  · rw [if_pos h1] at hgp
    simp at hgp
  · rw [if_neg h1] at hgp
    by_cases h2 : (demoCols.contains p.1) = true
    · rw [if_pos h2] at hgp
      simp only [Option.some.injEq] at hgp
      subst hgp
      exact append_health_ne_merge p.1 hq1
    · rw [if_neg h2] at hgp
      simp only [Option.some.injEq] at hgp
      subst hgp
      exact hr (hq1 ▸ List.mem_map_of_mem (fun p => p.1) hp)

theorem not_merge_suffixHealthCols (demoCols healthCols : List String)
    (hh : "_merge" ∉ healthCols) : "_merge" ∉ suffixHealthCols demoCols healthCols := by
  intro hmem
  unfold suffixHealthCols at hmem
  obtain ⟨c, hc, hgc⟩ := List.mem_filterMap.mp hmem
  by_cases h1 : c = "resident_id"
  · rw [if_pos h1] at hgc
    simp at hgc
  · rw [if_neg h1] at hgc
    by_cases h2 : (demoCols.contains c) = true
    · rw [if_pos h2] at hgc
      simp only [Option.some.injEq] at hgc
      exact append_health_ne_merge c hgc
    · rw [if_neg h2] at hgc
      simp only [Option.some.injEq] at hgc
      exact hh (hgc ▸ hc)

theorem keyVal_bothRow (demoCols : List String) (l r : Row)
    (hl : "resident_id" ∈ rowNames l) : keyVal (bothRow demoCols l r) = keyVal l := by
  unfold bothRow keyVal
  rw [getVal_append_left _ _ _ (by
    rw [rowNames_append]
    exact List.mem_append_left _ hl)]
  rw [getVal_append_left _ _ _ hl]

theorem keyVal_leftOnlyRow (demoCols healthCols : List String) (l : Row)
    (hl : "resident_id" ∈ rowNames l) :
    keyVal (leftOnlyRow demoCols healthCols l) = keyVal l := by
  unfold leftOnlyRow keyVal
  rw [getVal_append_left _ _ _ (by
    rw [rowNames_append]
    exact List.mem_append_left _ hl)]
  rw [getVal_append_left _ _ _ hl]

theorem keyVal_rightOnlyRow (demoCols : List String) (r : Row)
    (hk : "resident_id" ∈ demoCols) :
    keyVal (rightOnlyRow demoCols r) = keyVal r := by
  unfold rightOnlyRow keyVal
  rw [getVal_append_left _ _ _ (by
    rw [rowNames_append, rowNames_tabulate]
    exact List.mem_append_left _ hk)]
  rw [getVal_append_left _ _ _ (by
    rw [rowNames_tabulate]
    exact hk)]
  rw [getVal_tabulate _ _ _ hk]
  simp

theorem tag_bothRow (demoCols : List String) (l r : Row)
    (hl : "_merge" ∉ rowNames l) (hr : "_merge" ∉ rowNames r) :
    getVal (bothRow demoCols l r) "_merge" = Value.str "both" := by
  unfold bothRow
  rw [getVal_append_right _ _ _ (by
    rw [rowNames_append]
    intro hmem
    rcases List.mem_append.mp hmem with hm | hm
    · exact hl hm
    · exact not_merge_healthEntries demoCols r hr hm)]
  simp [getVal]

theorem tag_leftOnlyRow (demoCols healthCols : List String) (l : Row)
    (hl : "_merge" ∉ rowNames l) (hh : "_merge" ∉ healthCols) :
    getVal (leftOnlyRow demoCols healthCols l) "_merge" = Value.str "left_only" := by
  unfold leftOnlyRow
  rw [getVal_append_right _ _ _ (by
    rw [rowNames_append]
    intro hmem
    rcases List.mem_append.mp hmem with hm | hm
    · exact hl hm
    · rw [show rowNames ((suffixHealthCols demoCols healthCols).map
        (fun c => (c, Value.null))) = suffixHealthCols demoCols healthCols from
        rowNames_tabulate _ _] at hm
      exact not_merge_suffixHealthCols demoCols healthCols hh hm)]
  simp [getVal]

theorem tag_rightOnlyRow (demoCols : List String) (r : Row)
    (hmd : "_merge" ∉ demoCols) (hmr : "_merge" ∉ rowNames r) :
    getVal (rightOnlyRow demoCols r) "_merge" = Value.str "right_only" := by
  unfold rightOnlyRow
  rw [getVal_append_right _ _ _ (by
    rw [rowNames_append, rowNames_tabulate]
    intro hmem
    rcases List.mem_append.mp hmem with hm | hm
    · exact hmd hm
    · exact not_merge_healthEntries demoCols r hmr hm)]
  simp [getVal]

theorem filter_key_not_mem (rows : List Row) (v : Value)
    (hv : v ∉ rows.map keyVal) : rows.filter (fun r => keyVal r == v) = [] := by
  rw [List.filter_eq_nil_iff]
  intro r hr
  simp only [beq_iff_eq]
  intro he
  exact hv (he ▸ List.mem_map_of_mem keyVal hr)

theorem filter_key_nodup (rows : List Row) (hnd : (rows.map keyVal).Nodup)
    (r : Row) (hr : r ∈ rows) :
    rows.filter (fun r' => keyVal r' == keyVal r) = [r] := by
  induction rows with
  | nil => simp at hr
  | cons r0 rs ih =>
    simp only [List.map_cons, List.nodup_cons] at hnd
    rcases List.mem_cons.mp hr with he | hmem
    · rw [he, List.filter_cons, if_pos (by simp)]
      rw [filter_key_not_mem rs (keyVal r0) hnd.1]
    · rw [List.filter_cons]
      have hne : (keyVal r0 == keyVal r) = false := by
        simp only [beq_eq_false_iff_ne, ne_eq]
        intro he
        exact hnd.1 (he ▸ List.mem_map_of_mem keyVal hmem)
      rw [hne]
      simp only [Bool.false_eq_true, if_false]
      exact ih hnd.2 hmem

theorem flatMap_map_key (order : List Value) (F : Value → List Row)
    (h : ∀ k ∈ order, (F k).map keyVal = [k]) :
    (order.flatMap F).map keyVal = order := by
  induction order with
  | nil => rfl
  | cons k ks ih =>
    rw [List.flatMap_cons, List.map_append, h k (List.mem_cons_self k ks),
      ih (fun k' hk' => h k' (List.mem_cons_of_mem k hk'))]
    rfl

theorem mergeGroup_key (health_df demo_df : DF) (hwd : WF demo_df)
    (hkd : "resident_id" ∈ demo_df.cols)
    (hndd : (keysOf demo_df).Nodup) (hndh : (keysOf health_df).Nodup)
    (k : Value) (hk : k ∈ keysOf demo_df ∨ k ∈ keysOf health_df) :
    (mergeGroup health_df demo_df k).map keyVal = [k] := by
  unfold mergeGroup
  by_cases hkd2 : k ∈ keysOf demo_df
  · obtain ⟨l, hl, hkl⟩ := List.mem_map.mp hkd2
    have hls : demo_df.rows.filter (fun r => keyVal r == k) = [l] := by
      rw [← hkl]
      exact filter_key_nodup demo_df.rows hndd l hl
    rw [hls]
    simp only [List.isEmpty_cons, Bool.false_eq_true, if_false]
    by_cases hrs : (health_df.rows.filter (fun r => keyVal r == k)).isEmpty = true
    · rw [if_pos hrs]
      simp only [List.map_cons, List.map_nil]
      rw [keyVal_leftOnlyRow _ _ _ (by rw [hwd l hl]; exact hkd), hkl]
    · rw [if_neg hrs]
      have hex : ∃ r', r' ∈ health_df.rows.filter (fun r => keyVal r == k) := by
        cases hfe : health_df.rows.filter (fun r => keyVal r == k) with
        | nil => rw [hfe] at hrs; simp at hrs
        | cons a as => exact ⟨a, hfe ▸ List.mem_cons_self a as⟩
      obtain ⟨r', hr'⟩ := hex
      have hr'm := List.mem_filter.mp hr'
      have hkr' : keyVal r' = k := beq_iff_eq.mp hr'm.2
      have hrs2 : health_df.rows.filter (fun r => keyVal r == k) = [r'] := by
        rw [← hkr']
        exact filter_key_nodup health_df.rows hndh r' hr'm.1
      rw [hrs2]
      show ([l].flatMap (fun l => [r'].map (fun r => bothRow demo_df.cols l r))).map keyVal = [k]
      simp only [List.flatMap_cons, List.flatMap_nil, List.map_cons, List.map_nil,
        List.append_nil]
      rw [keyVal_bothRow _ _ _ (by rw [hwd l hl]; exact hkd), hkl]
  · have hkh : k ∈ keysOf health_df := by
      rcases hk with h1 | h1
      · exact absurd h1 hkd2
      · exact h1
    have hls : demo_df.rows.filter (fun r => keyVal r == k) = [] :=
      filter_key_not_mem demo_df.rows k hkd2
    rw [hls]
    simp only [List.isEmpty_nil, if_true]
    obtain ⟨r', hr', hkr'⟩ := List.mem_map.mp hkh
    have hrs2 : health_df.rows.filter (fun r => keyVal r == k) = [r'] := by
      rw [← hkr']
      exact filter_key_nodup health_df.rows hndh r' hr'
    rw [hrs2]
    simp only [List.map_cons, List.map_nil]
    rw [keyVal_rightOnlyRow _ _ hkd, hkr']

theorem mergeGroup_right_only (health_df demo_df : DF)
    (hndh : (keysOf health_df).Nodup)
    (k : Value) (hkh : k ∈ keysOf health_df) (hknd : k ∉ keysOf demo_df) :
    ∃ r' ∈ health_df.rows, keyVal r' = k ∧
      mergeGroup health_df demo_df k = [rightOnlyRow demo_df.cols r'] := by
  obtain ⟨r', hr', hkr'⟩ := List.mem_map.mp hkh
  refine ⟨r', hr', hkr', ?_⟩
  unfold mergeGroup
  have hls : demo_df.rows.filter (fun r => keyVal r == k) = [] :=
    filter_key_not_mem demo_df.rows k hknd
  rw [hls]
  simp only [List.isEmpty_nil, if_true]
  have hrs2 : health_df.rows.filter (fun r => keyVal r == k) = [r'] := by
    rw [← hkr']
    exact filter_key_nodup health_df.rows hndh r' hr'
  rw [hrs2]
  rfl

/-- Claim C8: the join is a full outer join — under unique per-side keys,
the output's key sequence is exactly the demographic keys in their order
followed by the health-only keys in their order (so no key of either side
is dropped), every key of the union is present, and a key present only in
the health frame yields a row tagged right_only. -/
theorem C8_outer_join (health_df demo_df : DF)
    (hwd : WF demo_df) (hwh : WF health_df)
    (hkd : "resident_id" ∈ demo_df.cols)
    (hmd : "_merge" ∉ demo_df.cols) (hmh : "_merge" ∉ health_df.cols)
    (hndd : (keysOf demo_df).Nodup) (hndh : (keysOf health_df).Nodup) :
    ((merge_dataframes health_df demo_df).rows.map keyVal =
      keysOf demo_df ++ (keysOf health_df).filter
        (fun v => !(keysOf demo_df).contains v)) ∧
    (∀ k ∈ keysOf demo_df ++ keysOf health_df,
      ∃ row ∈ (merge_dataframes health_df demo_df).rows, keyVal row = k) ∧
    (∀ k ∈ keysOf health_df, k ∉ keysOf demo_df →
      ∃ row ∈ (merge_dataframes health_df demo_df).rows,
        keyVal row = k ∧ getVal row "_merge" = Value.str "right_only") := by
  have hrows : (merge_dataframes health_df demo_df).rows =
      (keysOf demo_df ++ (keysOf health_df).filter
        (fun v => !(keysOf demo_df).contains v)).flatMap
        (mergeGroup health_df demo_df) := by
    show (firstOccur (keysOf demo_df ++ keysOf health_df)).flatMap _ = _
    rw [firstOccur_append_nodup (keysOf demo_df) (keysOf health_df) hndd hndh]
  have hmapkey : (merge_dataframes health_df demo_df).rows.map keyVal =
      keysOf demo_df ++ (keysOf health_df).filter
        (fun v => !(keysOf demo_df).contains v) := by
    rw [hrows]
    apply flatMap_map_key
    intro k hk
    apply mergeGroup_key health_df demo_df hwd hkd hndd hndh
    rcases List.mem_append.mp hk with h1 | h1
    · exact Or.inl h1
    · exact Or.inr (List.mem_filter.mp h1).1
  refine ⟨hmapkey, ?_, ?_⟩
  · intro k hk
    have hkin : k ∈ keysOf demo_df ++ (keysOf health_df).filter
        (fun v => !(keysOf demo_df).contains v) := by
      rcases List.mem_append.mp hk with h1 | h1
      · exact List.mem_append_left _ h1
      · by_cases h2 : k ∈ keysOf demo_df
        · exact List.mem_append_left _ h2
        · refine List.mem_append_right _ (List.mem_filter.mpr ⟨h1, ?_⟩)
          simp only [List.elem_eq_mem, Bool.not_eq_true', decide_eq_false_iff_not]
          exact h2
    rw [← hmapkey] at hkin
    obtain ⟨row, hrow, hkrow⟩ := List.mem_map.mp hkin
    exact ⟨row, hrow, hkrow⟩
  · intro k hkh hknd
    obtain ⟨r', hr', hkr', hgroup⟩ :=
      mergeGroup_right_only health_df demo_df hndh k hkh hknd
    refine ⟨rightOnlyRow demo_df.cols r', ?_, ?_, ?_⟩
    · rw [hrows]
      apply List.mem_flatMap.mpr
      refine ⟨k, ?_, ?_⟩
      · refine List.mem_append_right _ (List.mem_filter.mpr ⟨hkh, ?_⟩)
        simp only [List.elem_eq_mem, Bool.not_eq_true', decide_eq_false_iff_not]
        exact hknd
      · rw [hgroup]
        exact List.mem_cons_self _ _
    · rw [keyVal_rightOnlyRow _ _ hkd, hkr']
    · exact tag_rightOnlyRow demo_df.cols r' hmd (by
        rw [hwh r' hr']
        exact hmh)

def dfC8h : DF :=
  { cols := ["resident_id", "age"],
    rows := [[("resident_id", Value.int 5), ("age", Value.int 30)],
             [("resident_id", Value.int 1), ("age", Value.int 9)]] }

def dfC8d : DF :=
  { cols := ["resident_id", "Name of citizen"],
    rows := [[("resident_id", Value.int 1), ("Name of citizen", Value.str "A")],
             [("resident_id", Value.int 2), ("Name of citizen", Value.str "B")]] }

/-- Witness for C8 at concrete frames: demographic keys 1,2 and health
keys 5,1 — output keys are 1,2 then the health-only 5, and key 5 is
retained with provenance right_only. -/
theorem C8_witness :
    ((merge_dataframes dfC8h dfC8d).rows.map keyVal =
      keysOf dfC8d ++ (keysOf dfC8h).filter
        (fun v => !(keysOf dfC8d).contains v)) ∧
    (∃ row ∈ (merge_dataframes dfC8h dfC8d).rows, keyVal row = Value.int 5) ∧
    (∃ row ∈ (merge_dataframes dfC8h dfC8d).rows,
      keyVal row = Value.int 5 ∧ getVal row "_merge" = Value.str "right_only") := by
  have h := C8_outer_join dfC8h dfC8d (by decide) (by decide) (by decide)
    (by decide) (by decide) (by decide) (by decide)
  exact ⟨h.1, h.2.1 (Value.int 5) (by decide), h.2.2 (Value.int 5) (by decide) (by decide)⟩

-- ===== Lemmas towards C10: the key survives every stage =====

theorem append_health_ne_resident_id (c : String) : c ++ "_health" ≠ "resident_id" := by
  intro h
  have := suffix_data_of_append c "_health" "resident_id" h
  exact absurd this (by decide)

theorem append_health_ne_residentId (c : String) : c ++ "_health" ≠ "residentId" := by
  intro h
  have := suffix_data_of_append c "_health" "residentId" h
  exact absurd this (by decide)

theorem getVal_renameRow_to (m : List (String × String)) (r : Row) (s t : String)
    (hst : renameFn m s = t)
    (hinj : ∀ c ∈ rowNames r, renameFn m c = t → c = s) :
    getVal (r.map (fun p => (renameFn m p.1, p.2))) t = getVal r s := by
  induction r with
  | nil => rfl
  | cons p r ih =>
    simp only [List.map_cons, getVal]
    by_cases hps : p.1 = s
    · rw [if_pos (by rw [hps]; exact hst), if_pos hps]
    · have hnt : renameFn m p.1 ≠ t := fun he =>
        hps (hinj p.1 (by simp [rowNames]) he)
      rw [if_neg hnt, if_neg hps]
      exact ih (fun c hc he => hinj c (by simp [rowNames]; exact Or.inr (by
        simpa [rowNames] using hc)) he)

theorem renameDF_keys_int (df : DF) (m : List (String × String)) (s t : String)
    (hst : renameFn m s = t)
    (hinj : ∀ r ∈ df.rows, ∀ c ∈ rowNames r, renameFn m c = t → c = s)
    (h : ∀ r ∈ df.rows, (getVal r s).isInt = true) :
    ∀ r' ∈ (renameDF df m).rows, (getVal r' t).isInt = true := by
  intro r' hr'
  simp only [renameDF, List.mem_map] at hr'
  obtain ⟨r, hr, rfl⟩ := hr'
  rw [getVal_renameRow_to m r s t hst (hinj r hr)]
  exact h r hr

theorem renameDF_cols_not_mem (df : DF) (m : List (String × String)) (t : String)
    (ht : t ∉ df.cols) (hv : ∀ p ∈ m, p.2 ≠ t) : t ∉ (renameDF df m).cols := by
  intro hmem
  simp only [renameDF, List.mem_map] at hmem
  obtain ⟨c, hc, he⟩ := hmem
  unfold renameFn at he
  cases hf : m.find? (fun p => p.1 == c) with
  | none => rw [hf] at he; exact ht (he ▸ hc)
  | some p =>
    rw [hf] at he
    exact hv p (List.mem_of_find?_eq_some hf) he

theorem dropCol_WF (df : DF) (c : String) (h : WF df) : WF (dropCol df c) := by
  intro r hr
  simp only [dropCol, List.mem_map] at hr
  obtain ⟨r0, hr0, rfl⟩ := hr
  rw [rowNames_filter_ne, h r0 hr0]
  rfl

theorem dropCol_cols_not_mem (df : DF) (c t : String) (h : t ∉ df.cols) :
    t ∉ (dropCol df c).cols := by
  intro hmem
  exact h (List.mem_of_mem_filter hmem)

theorem dropCol_cols_keep (df : DF) (c t : String) (h : t ∈ df.cols) (hne : t ≠ c) :
    t ∈ (dropCol df c).cols := by
  simp only [dropCol]
  exact List.mem_filter.mpr ⟨h, by simp [hne]⟩

theorem dropCol_keys_int (df : DF) (c t : String) (hne : c ≠ t)
    (h : ∀ r ∈ df.rows, (getVal r t).isInt = true) :
    ∀ r' ∈ (dropCol df c).rows, (getVal r' t).isInt = true := by
  intro r' hr'
  simp only [dropCol, List.mem_map] at hr'
  obtain ⟨r, hr, rfl⟩ := hr'
  rw [getVal_dropEntry_ne r c t hne]
  exact h r hr

theorem read_health_ok (df h' : DF) (hwf : WF df)
    (hh : read_health_data df = some h') :
    WF h' ∧ h'.cols = (standardizeKeyCol df
        ((find_resident_id_column df).getD "resident_id")).cols ∧
    "resident_id" ∈ h'.cols ∧
    ∀ r ∈ h'.rows, (getVal r "resident_id").isInt = true := by
  cases hf : find_resident_id_column df with
  | none =>
    unfold read_health_data at hh
    rw [hf] at hh
    simp at hh
  | some c =>
    rw [read_health_data_found df c hf] at hh
    cases ho : optMap (fun r => (coerceKey (getVal r "resident_id")).map
        (fun k => setVal r "resident_id" (.int k)))
        (standardizeKeyCol df c).rows with
    | none => rw [ho] at hh; simp at hh
    | some rows1 =>
      simp only [ho, Option.some.injEq] at hh
      subst hh
      have hwfs : WF (standardizeKeyCol df c) := standardizeKeyCol_WF df c hwf
      have hkeym : "resident_id" ∈ (standardizeKeyCol df c).cols :=
        standardizeKeyCol_key_mem df c (find_resident_id_column_mem df c hf)
      have hrowfact : ∀ r ∈ rows1, ∃ r0 ∈ (standardizeKeyCol df c).rows,
          ∃ k, r = setVal r0 "resident_id" (.int k) := by
        intro r hr
        obtain ⟨r0, hr0, hfr0⟩ := optMap_mem _ _ _ ho r hr
        cases hk : coerceKey (getVal r0 "resident_id") with
        | none => rw [hk] at hfr0; simp at hfr0
        | some k =>
          rw [hk] at hfr0
          simp only [Option.map_some', Option.some.injEq] at hfr0
          exact ⟨r0, hr0, k, hfr0.symm⟩
      refine ⟨?_, rfl, hkeym, ?_⟩
      · intro r hr
        obtain ⟨r0, hr0, k, rfl⟩ := hrowfact r hr
        show rowNames (setVal r0 "resident_id" (Value.int k)) = _
        rw [rowNames_setVal, hwfs r0 hr0]
      · intro r hr
        obtain ⟨r0, hr0, k, rfl⟩ := hrowfact r hr
        rw [getVal_setVal_self r0 "resident_id" _ (by
          rw [hwfs r0 hr0]
          exact hkeym)]
        rfl

theorem read_demo_ok (df d' : DF) (hwf : WF df)
    (hd : read_demographic_data df = some d') :
    WF d' ∧ d'.cols = (standardizeKeyCol df
        ((find_resident_id_column df).getD "resident_id")).cols ∧
    "resident_id" ∈ d'.cols ∧
    ∀ r ∈ d'.rows, (getVal r "resident_id").isInt = true := by
  cases hf : find_resident_id_column df with
  | none =>
    unfold read_demographic_data at hd
    rw [hf] at hd
    simp at hd
  | some c =>
    unfold read_demographic_data at hd
    rw [hf] at hd
    simp only [Option.some.injEq] at hd
    subst hd
    have hwfs : WF (standardizeKeyCol df c) := standardizeKeyCol_WF df c hwf
    have hkeym : "resident_id" ∈ (standardizeKeyCol df c).cols :=
      standardizeKeyCol_key_mem df c (find_resident_id_column_mem df c hf)
    have hrowfact : ∀ r ∈ (standardizeKeyCol df c).rows.filterMap (fun r =>
        (coerceKey (getVal r "resident_id")).map
          (fun k => setVal r "resident_id" (.int k))),
        ∃ r0 ∈ (standardizeKeyCol df c).rows,
          ∃ k, r = setVal r0 "resident_id" (.int k) := by
      intro r hr
      obtain ⟨r0, hr0, hfr0⟩ := List.mem_filterMap.mp hr
      cases hk : coerceKey (getVal r0 "resident_id") with
      | none => rw [hk] at hfr0; simp at hfr0
      | some k =>
        rw [hk] at hfr0
        simp only [Option.map_some', Option.some.injEq] at hfr0
        exact ⟨r0, hr0, k, hfr0.symm⟩
    refine ⟨?_, rfl, hkeym, ?_⟩
    · intro r hr
      obtain ⟨r0, hr0, k, rfl⟩ := hrowfact r hr
      show rowNames (setVal r0 "resident_id" (Value.int k)) = _
      rw [rowNames_setVal, hwfs r0 hr0]
    · intro r hr
      obtain ⟨r0, hr0, k, rfl⟩ := hrowfact r hr
      rw [getVal_setVal_self r0 "resident_id" _ (by
        rw [hwfs r0 hr0]
        exact hkeym)]
      rfl

theorem identify_mem_ne_key (health_df demo_df : DF) (c : String)
    (hc : c ∈ identify_overlapping_columns health_df demo_df) : c ≠ "resident_id" := by
  unfold identify_overlapping_columns at hc
  have := (List.mem_filter.mp hc).2
  simp only [Bool.and_eq_true, bne_iff_ne, ne_eq] at this
  exact this.2

theorem prepare_map_fact (h' : DF) (ov : List String) :
    ∀ p ∈ ov.filterMap (fun c =>
      if h'.cols.contains c then some (c, c ++ "_health") else none),
      p.2 = p.1 ++ "_health" ∧ p.1 ∈ ov := by
  intro p hp
  obtain ⟨c0, hc0, hite⟩ := List.mem_filterMap.mp hp
  by_cases hcc : (h'.cols.contains c0) = true
  · rw [if_pos hcc] at hite
    simp only [Option.some.injEq] at hite
    subst hite
    exact ⟨rfl, hc0⟩
  · rw [if_neg hcc] at hite
    simp at hite

theorem prepare_health_ok (h' : DF) (ov : List String)
    (hov : ∀ c ∈ ov, c ≠ "resident_id")
    (hwf : WF h') (hkm : "resident_id" ∈ h'.cols)
    (hkeys : ∀ r ∈ h'.rows, (getVal r "resident_id").isInt = true) :
    WF (prepare_health_data_for_merge h' ov) ∧
    "resident_id" ∈ (prepare_health_data_for_merge h' ov).cols ∧
    ∀ r ∈ (prepare_health_data_for_merge h' ov).rows,
      (getVal r "resident_id").isInt = true := by
  unfold prepare_health_data_for_merge
  have hfact := prepare_map_fact h' ov
  have hfix : renameFn (ov.filterMap (fun c =>
      if h'.cols.contains c then some (c, c ++ "_health") else none))
      "resident_id" = "resident_id" := by
    unfold renameFn
    rw [List.find?_eq_none.mpr]
    intro p hp
    simp only [beq_iff_eq]
    intro he
    exact hov p.1 (hfact p hp).2 he
  have hinj : ∀ c, renameFn (ov.filterMap (fun c =>
      if h'.cols.contains c then some (c, c ++ "_health") else none)) c =
      "resident_id" → c = "resident_id" := by
    intro c he
    unfold renameFn at he
    cases hfind : (ov.filterMap (fun c =>
        if h'.cols.contains c then some (c, c ++ "_health") else none)).find?
        (fun p => p.1 == c) with
    | none => simp only [hfind] at he; exact he
    | some p =>
      simp only [hfind] at he
      have hmem := List.mem_of_find?_eq_some hfind
      rw [(hfact p hmem).1] at he
      exact absurd he (append_health_ne_resident_id p.1)
  have hrn : WF (renameDF h' (ov.filterMap (fun c =>
      if h'.cols.contains c then some (c, c ++ "_health") else none))) :=
    renameDF_WF h' _ hwf
  have hrk : "resident_id" ∈ (renameDF h' (ov.filterMap (fun c =>
      if h'.cols.contains c then some (c, c ++ "_health") else none))).cols := by
    have := List.mem_map_of_mem (renameFn (ov.filterMap (fun c =>
      if h'.cols.contains c then some (c, c ++ "_health") else none))) hkm
    rw [hfix] at this
    exact this
  have hri : ∀ r ∈ (renameDF h' (ov.filterMap (fun c =>
      if h'.cols.contains c then some (c, c ++ "_health") else none))).rows,
      (getVal r "resident_id").isInt = true :=
    renameDF_keys_int h' _ "resident_id" "resident_id" hfix
      (fun r _ c _ he => hinj c he) hkeys
  by_cases hu : ((renameDF h' (ov.filterMap (fun c =>
      if h'.cols.contains c then some (c, c ++ "_health") else none))).cols.contains
      "Unnamed: 13") = true
  · rw [if_pos hu]
    exact ⟨dropCol_WF _ _ hrn, dropCol_cols_keep _ _ _ hrk (by decide),
      dropCol_keys_int _ _ _ (by decide) hri⟩
  · rw [if_neg hu]
    exact ⟨hrn, hrk, hri⟩

theorem prepare_cols_not_mem (h' : DF) (ov : List String) (t : String)
    (ht : t ∉ h'.cols) (htv : ∀ c : String, c ++ "_health" ≠ t) :
    t ∉ (prepare_health_data_for_merge h' ov).cols := by
  unfold prepare_health_data_for_merge
  have hnr : t ∉ (renameDF h' (ov.filterMap (fun c =>
      if h'.cols.contains c then some (c, c ++ "_health") else none))).cols := by
    apply renameDF_cols_not_mem _ _ _ ht
    intro p hp
    rw [(prepare_map_fact h' ov p hp).1]
    exact htv p.1
  by_cases hu : ((renameDF h' (ov.filterMap (fun c =>
      if h'.cols.contains c then some (c, c ++ "_health") else none))).cols.contains
      "Unnamed: 13") = true
  · rw [if_pos hu]
    exact dropCol_cols_not_mem _ _ _ hnr
  · rw [if_neg hu]
    exact hnr

theorem rowNames_healthEntries (demoCols : List String) (r : Row) :
    rowNames (healthEntries demoCols r) = suffixHealthCols demoCols (rowNames r) := by
  induction r with
  | nil => rfl
  | cons p r ih =>
    show rowNames (healthEntries demoCols (p :: r)) =
      suffixHealthCols demoCols (p.1 :: rowNames r)
    unfold healthEntries suffixHealthCols at ih ⊢
    simp only [List.filterMap_cons]
    by_cases h1 : p.1 = "resident_id"
    · rw [if_pos h1, if_pos h1]
      exact ih
    · rw [if_neg h1, if_neg h1]
      by_cases h2 : (demoCols.contains p.1) = true
      · rw [if_pos h2, if_pos h2]
        simp only [rowNames, List.map_cons] at ih ⊢
        rw [ih]
      · rw [if_neg h2, if_neg h2]
        simp only [rowNames, List.map_cons] at ih ⊢
        rw [ih]

theorem merge_WF (health_df demo_df : DF) (hwd : WF demo_df) (hwh : WF health_df) :
    WF (merge_dataframes health_df demo_df) := by
  intro row hrow
  obtain ⟨k, hk, hrg⟩ := List.mem_flatMap.mp hrow
  show rowNames row = demo_df.cols ++ suffixHealthCols demo_df.cols health_df.cols
    ++ ["_merge"]
  unfold mergeGroup at hrg
  by_cases hls : ((demo_df.rows.filter (fun r => keyVal r == k)).isEmpty) = true
  · rw [if_pos hls] at hrg
    obtain ⟨r', hr', rfl⟩ := List.mem_map.mp hrg
    have hr'm := (List.mem_filter.mp hr').1
    unfold rightOnlyRow
    rw [rowNames_append, rowNames_append, rowNames_tabulate,
      rowNames_healthEntries, hwh r' hr'm]
    rfl
  · rw [if_neg hls] at hrg
    by_cases hrs : ((health_df.rows.filter (fun r => keyVal r == k)).isEmpty) = true
    · rw [if_pos hrs] at hrg
      obtain ⟨l, hl, rfl⟩ := List.mem_map.mp hrg
      have hlm := (List.mem_filter.mp hl).1
      unfold leftOnlyRow
      rw [rowNames_append, rowNames_append, rowNames_tabulate, hwd l hlm]
      rfl
    · rw [if_neg hrs] at hrg
      obtain ⟨l, hl, hrg2⟩ := List.mem_flatMap.mp hrg
      obtain ⟨r', hr', rfl⟩ := List.mem_map.mp hrg2
      have hlm := (List.mem_filter.mp hl).1
      have hr'm := (List.mem_filter.mp hr').1
      unfold bothRow
      rw [rowNames_append, rowNames_append, rowNames_healthEntries,
        hwd l hlm, hwh r' hr'm]
      rfl

theorem merge_keys_int (health_df demo_df : DF) (hwd : WF demo_df)
    (hkd : "resident_id" ∈ demo_df.cols)
    (hkeyd : ∀ r ∈ demo_df.rows, (keyVal r).isInt = true)
    (hkeyh : ∀ r ∈ health_df.rows, (keyVal r).isInt = true) :
    ∀ row ∈ (merge_dataframes health_df demo_df).rows, (keyVal row).isInt = true := by
  intro row hrow
  obtain ⟨k, hk, hrg⟩ := List.mem_flatMap.mp hrow
  unfold mergeGroup at hrg
  by_cases hls : ((demo_df.rows.filter (fun r => keyVal r == k)).isEmpty) = true
  · rw [if_pos hls] at hrg
    obtain ⟨r', hr', rfl⟩ := List.mem_map.mp hrg
    rw [keyVal_rightOnlyRow _ _ hkd]
    exact hkeyh r' (List.mem_filter.mp hr').1
  · rw [if_neg hls] at hrg
    by_cases hrs : ((health_df.rows.filter (fun r => keyVal r == k)).isEmpty) = true
    · rw [if_pos hrs] at hrg
      obtain ⟨l, hl, rfl⟩ := List.mem_map.mp hrg
      have hlm := (List.mem_filter.mp hl).1
      rw [keyVal_leftOnlyRow _ _ _ (by rw [hwd l hlm]; exact hkd)]
      exact hkeyd l hlm
    · rw [if_neg hrs] at hrg
      obtain ⟨l, hl, hrg2⟩ := List.mem_flatMap.mp hrg
      obtain ⟨r', hr', rfl⟩ := List.mem_map.mp hrg2
      have hlm := (List.mem_filter.mp hl).1
      rw [keyVal_bothRow _ _ _ (by rw [hwd l hlm]; exact hkd)]
      exact hkeyd l hlm

theorem suffixHealthCols_not_mem (demoCols healthCols : List String) (t : String)
    (ht : t ∉ healthCols) (htv : ∀ c : String, c ++ "_health" ≠ t) :
    t ∉ suffixHealthCols demoCols healthCols := by
  intro hmem
  obtain ⟨c, hc, hite⟩ := List.mem_filterMap.mp hmem
  by_cases h1 : c = "resident_id"
  · rw [if_pos h1] at hite
    simp at hite
  · rw [if_neg h1] at hite
    by_cases h2 : (demoCols.contains c) = true
    · rw [if_pos h2] at hite
      simp only [Option.some.injEq] at hite
      exact htv c hite
    · rw [if_neg h2] at hite
      simp only [Option.some.injEq] at hite
      exact ht (hite ▸ hc)

theorem merge_cols_not_mem (health_df demo_df : DF) (t : String)
    (htd : t ∉ demo_df.cols) (hth : t ∉ health_df.cols)
    (htv : ∀ c : String, c ++ "_health" ≠ t) (htm : t ≠ "_merge") :
    t ∉ (merge_dataframes health_df demo_df).cols := by
  intro hmem
  rcases List.mem_append.mp hmem with h1 | h2
  · rcases List.mem_append.mp h1 with h3 | h4
    · exact htd h3
    · exact suffixHealthCols_not_mem _ _ _ hth htv h4
  · rcases List.mem_singleton.mp h2 with rfl
    exact htm rfl

theorem standardizeKeyCol_cols_not_mem (df : DF) (c t : String)
    (ht : t ∉ df.cols) (htk : t ≠ "resident_id") :
    t ∉ (standardizeKeyCol df c).cols := by
  unfold standardizeKeyCol
  by_cases h1 : c = "resident_id"
  · rw [if_pos h1]
    exact ht
  · rw [if_neg h1]
    apply renameDF_cols_not_mem _ _ _ ht
    intro p hp
    rcases List.mem_singleton.mp hp with rfl
    exact fun he => htk he.symm

theorem normalizeGenderCol_cols (df : DF) (c : String) :
    (normalizeGenderCol df c).cols = df.cols := rfl

theorem coalesceInto_cols (df : DF) (target src : String) :
    (coalesceInto df target src).cols = df.cols := rfl

theorem normalizeGenderCol_WF (df : DF) (c : String) (h : WF df) :
    WF (normalizeGenderCol df c) := by
  intro r hr
  simp only [normalizeGenderCol, List.mem_map] at hr
  obtain ⟨r0, hr0, rfl⟩ := hr
  rw [rowNames_setVal]
  exact h r0 hr0

theorem coalesceInto_WF (df : DF) (target src : String) (h : WF df) :
    WF (coalesceInto df target src) := by
  intro r hr
  simp only [coalesceInto, List.mem_map] at hr
  obtain ⟨r0, hr0, rfl⟩ := hr
  by_cases hc : ((getVal r0 target).isNull && !(getVal r0 src).isNull) = true
  · rw [if_pos hc, rowNames_setVal]
    exact h r0 hr0
  · rw [if_neg hc]
    exact h r0 hr0

theorem normalizeGenderCol_keys_int (df : DF) (c t : String) (hne : t ≠ c)
    (h : ∀ r ∈ df.rows, (getVal r t).isInt = true) :
    ∀ r ∈ (normalizeGenderCol df c).rows, (getVal r t).isInt = true := by
  intro r hr
  simp only [normalizeGenderCol, List.mem_map] at hr
  obtain ⟨r0, hr0, rfl⟩ := hr
  rw [getVal_setVal_ne _ _ _ _ (fun he => hne he.symm)]
  exact h r0 hr0

theorem coalesceInto_keys_int (df : DF) (target src t : String) (hne : t ≠ target)
    (h : ∀ r ∈ df.rows, (getVal r t).isInt = true) :
    ∀ r ∈ (coalesceInto df target src).rows, (getVal r t).isInt = true := by
  intro r hr
  simp only [coalesceInto, List.mem_map] at hr
  obtain ⟨r0, hr0, rfl⟩ := hr
  by_cases hc : ((getVal r0 target).isNull && !(getVal r0 src).isNull) = true
  · rw [if_pos hc, getVal_setVal_ne _ _ _ _ (fun he => hne he.symm)]
    exact h r0 hr0
  · rw [if_neg hc]
    exact h r0 hr0

theorem column_mapping_preimage :
    ∀ p ∈ column_mapping, p.2 = "residentId" → p.1 = "resident_id" := by
  decide

theorem standardize_keys_int (df : DF) (hwf : WF df)
    (hnm : "residentId" ∉ df.cols)
    (h : ∀ r ∈ df.rows, (getVal r "resident_id").isInt = true) :
    WF (standardize_column_names df) ∧
    ∀ r ∈ (standardize_column_names df).rows,
      (getVal r "residentId").isInt = true := by
  simp only [standardize_column_names]
  by_cases hg : (df.cols.contains "gender" && df.cols.contains "Gender") = true
  · rw [if_pos hg]
    have hn1 := normalizeGenderCol_WF df "gender" hwf
    have hn2 := normalizeGenderCol_WF _ "Gender" hn1
    have hn3 := coalesceInto_WF _ "Gender" "gender" hn2
    have hn4 := dropCol_WF _ "gender" hn3
    have hk1 := normalizeGenderCol_keys_int df "gender" "resident_id" (by decide) h
    have hk2 := normalizeGenderCol_keys_int _ "Gender" "resident_id" (by decide) hk1
    have hk3 := coalesceInto_keys_int _ "Gender" "gender" "resident_id" (by decide) hk2
    have hk4 := dropCol_keys_int _ "gender" "resident_id" (by decide) hk3
    have hm4 : "residentId" ∉ (dropCol
        (coalesceInto (normalizeGenderCol (normalizeGenderCol df "gender") "Gender")
          "Gender" "gender") "gender").cols := by
      apply dropCol_cols_not_mem
      rw [coalesceInto_cols, normalizeGenderCol_cols, normalizeGenderCol_cols]
      exact hnm
    refine ⟨renameDF_WF _ _ hn4, ?_⟩
    apply renameDF_keys_int _ _ "resident_id" "residentId" (by decide)
    · intro r hr c hc he
      unfold renameFn at he
      cases hfind : column_mapping.find? (fun p => p.1 == c) with
      | none =>
        simp only [hfind] at he
        rw [hn4 r hr] at hc
        exact absurd (he ▸ hc) hm4
      | some p =>
        simp only [hfind] at he
        have hp1 : p.1 = c := by
          have := List.find?_some hfind
          simpa using this
        rw [← hp1]
        exact column_mapping_preimage p (List.mem_of_find?_eq_some hfind) he
    · exact hk4
  · rw [if_neg hg]
    refine ⟨renameDF_WF _ _ hwf, ?_⟩
    apply renameDF_keys_int _ _ "resident_id" "residentId" (by decide)
    · intro r hr c hc he
      unfold renameFn at he
      cases hfind : column_mapping.find? (fun p => p.1 == c) with
      | none =>
        simp only [hfind] at he
        rw [hwf r hr] at hc
        exact absurd (he ▸ hc) hnm
      | some p =>
        simp only [hfind] at he
        have hp1 : p.1 = c := by
          have := List.find?_some hfind
          simpa using this
        rw [← hp1]
        exact column_mapping_preimage p (List.mem_of_find?_eq_some hfind) he
    · exact h

theorem foldl_normGender_keys_int (cs : List String) (df : DF) (t : String)
    (hcs : ∀ c ∈ cs, t ≠ c)
    (h : ∀ r ∈ df.rows, (getVal r t).isInt = true) :
    ∀ r ∈ (cs.foldl normalizeGenderCol df).rows, (getVal r t).isInt = true := by
  induction cs generalizing df with
  | nil => exact h
  | cons c rest ih =>
    show ∀ r ∈ (rest.foldl normalizeGenderCol (normalizeGenderCol df c)).rows, _
    exact ih (normalizeGenderCol df c)
      (fun c' hc' => hcs c' (List.mem_cons_of_mem c hc'))
      (normalizeGenderCol_keys_int df c t (hcs c (List.mem_cons_self c rest)) h)

theorem foldl_coalesce_keys_int (cs : List String) (df : DF) (t : String)
    (hne : t ≠ "gender")
    (h : ∀ r ∈ df.rows, (getVal r t).isInt = true) :
    ∀ r ∈ (cs.foldl (fun d c => coalesceInto d "gender" c) df).rows,
      (getVal r t).isInt = true := by
  induction cs generalizing df with
  | nil => exact h
  | cons c rest ih =>
    show ∀ r ∈ (rest.foldl (fun d c => coalesceInto d "gender" c)
      (coalesceInto df "gender" c)).rows, _
    exact ih (coalesceInto df "gender" c)
      (coalesceInto_keys_int df "gender" c t hne h)

theorem dropCols_keys_int (cs : List String) (df : DF) (t : String)
    (hcs : ∀ c ∈ cs, c ≠ t)
    (h : ∀ r ∈ df.rows, (getVal r t).isInt = true) :
    ∀ r ∈ (dropCols df cs).rows, (getVal r t).isInt = true := by
  induction cs generalizing df with
  | nil => exact h
  | cons c rest ih =>
    show ∀ r ∈ (dropCols (dropCol df c) rest).rows, _
    exact ih (dropCol df c)
      (fun c' hc' => hcs c' (List.mem_cons_of_mem c hc'))
      (dropCol_keys_int df c t (hcs c (List.mem_cons_self c rest)) h)

theorem gcols_ne_residentId (cols : List String) :
    ∀ c ∈ cols.filter (fun c => pyLower c == "gender" || c == "gender.1"),
      c ≠ "residentId" := by
  intro c hc he
  subst he
  have := (List.mem_filter.mp hc).2
  exact absurd this (by decide)

theorem renameDF_single_keys_int (df : DF) (a b : String)
    (ha : a ≠ "residentId") (hb : b ≠ "residentId")
    (h : ∀ r ∈ df.rows, (getVal r "residentId").isInt = true) :
    ∀ r ∈ (renameDF df [(a, b)]).rows, (getVal r "residentId").isInt = true := by
  apply renameDF_keys_int df [(a, b)] "residentId" "residentId"
  · unfold renameFn
    rw [List.find?_eq_none.mpr]
    intro p hp
    rcases List.mem_singleton.mp hp with rfl
    simp only [beq_iff_eq]
    exact ha
  · intro r hr c hc he
    unfold renameFn at he
    cases hfind : List.find? (fun p => p.1 == c) [(a, b)] with
    | none => simp only [hfind] at he; exact he
    | some p =>
      simp only [hfind] at he
      have hmem := List.mem_of_find?_eq_some hfind
      rcases List.mem_singleton.mp hmem with rfl
      exact absurd he hb
  · exact h

theorem headI_mem_of_ne_nil {l : List String} (h : l ≠ []) : l.headI ∈ l := by
  cases l with
  | nil => exact absurd rfl h
  | cons a t => exact List.mem_cons_self a t

theorem dup_pairs_ne : ∀ p ∈ duplicate_pairs, p.2 ≠ "residentId" := by
  decide

theorem mem_ite_citizen {P : Prop} [inst : Decidable P] {c : String}
    (h : c ∈ (if P then ["citizen_name"] else ([] : List String))) :
    c ≠ "residentId" := by
  split at h
  · rcases List.mem_singleton.mp h with rfl
    decide
  · simp at h

theorem dedup_keys_int (df : DF)
    (h : ∀ r ∈ df.rows, (getVal r "residentId").isInt = true) :
    ∀ r ∈ (deduplicate_columns df).rows, (getVal r "residentId").isInt = true := by
  simp only [deduplicate_columns]
  split
  · next hlen =>
    have hnil : df.cols.filter (fun c => pyLower c == "gender" || c == "gender.1") ≠ [] := by
      intro hn
      rw [hn] at hlen
      simp at hlen
    have hka : ∀ r ∈ ((df.cols.filter
        (fun c => pyLower c == "gender" || c == "gender.1")).foldl
        normalizeGenderCol df).rows, (getVal r "residentId").isInt = true :=
      foldl_normGender_keys_int _ df "residentId"
        (fun c hc he => gcols_ne_residentId df.cols c hc he.symm) h
    split
    · next hcg =>
      refine dropCols_keys_int _ _ _ ?_ ?_
      · intro c hc
        have hc2 := List.mem_of_mem_filter hc
        rcases List.mem_append.mp hc2 with h1 | h2
        · rcases List.mem_append.mp h1 with h3 | h4
          · obtain ⟨p, hp, hite⟩ := List.mem_filterMap.mp h3
            split at hite
            · simp only [Option.some.injEq] at hite
              exact hite ▸ dup_pairs_ne p hp
            · simp at hite
          · have h5 := List.mem_of_mem_filter h4
            exact gcols_ne_residentId df.cols c h5
        · exact mem_ite_citizen h2
      · split
        · apply renameDF_single_keys_int _ _ _ (by decide) (by decide)
          exact foldl_coalesce_keys_int _ _ _ (by decide) hka
        · exact foldl_coalesce_keys_int _ _ _ (by decide) hka
    · next hcg =>
      have hhead : (df.cols.filter
          (fun c => pyLower c == "gender" || c == "gender.1")).headI ∈
          df.cols.filter (fun c => pyLower c == "gender" || c == "gender.1") :=
        headI_mem_of_ne_nil hnil
      have hkb : ∀ r ∈ (renameDF ((df.cols.filter
          (fun c => pyLower c == "gender" || c == "gender.1")).foldl
          normalizeGenderCol df)
          [((df.cols.filter (fun c => pyLower c == "gender" || c == "gender.1")).headI,
            "gender")]).rows, (getVal r "residentId").isInt = true :=
        renameDF_single_keys_int _ _ _
          (gcols_ne_residentId df.cols _ hhead) (by decide) hka
      refine dropCols_keys_int _ _ _ ?_ ?_
      · intro c hc
        have hc2 := List.mem_of_mem_filter hc
        rcases List.mem_append.mp hc2 with h1 | h2
        · rcases List.mem_append.mp h1 with h3 | h4
          · obtain ⟨p, hp, hite⟩ := List.mem_filterMap.mp h3
            split at hite
            · simp only [Option.some.injEq] at hite
              exact hite ▸ dup_pairs_ne p hp
            · simp at hite
          · have h5 := List.mem_of_mem_filter h4
            rcases List.mem_cons.mp h5 with rfl | h6
            · decide
            · exact gcols_ne_residentId df.cols c (List.mem_of_mem_tail h6)
        · exact mem_ite_citizen h2
      · split
        · apply renameDF_single_keys_int _ _ _ (by decide) (by decide)
          exact foldl_coalesce_keys_int _ _ _ (by decide) hkb
        · exact foldl_coalesce_keys_int _ _ _ (by decide) hkb
  · next hlen =>
    refine dropCols_keys_int _ _ _ ?_ ?_
    · intro c hc
      have hc2 := List.mem_of_mem_filter hc
      rcases List.mem_append.mp hc2 with h1 | h2
      · rcases List.mem_append.mp h1 with h3 | h4
        · obtain ⟨p, hp, hite⟩ := List.mem_filterMap.mp h3
          split at hite
          · simp only [Option.some.injEq] at hite
            exact hite ▸ dup_pairs_ne p hp
          · simp at hite
        · simp at h4
      · exact mem_ite_citizen h2
    · split
      · exact renameDF_single_keys_int _ _ _ (by decide) (by decide) h
      · exact h

theorem resolve_keys_int (ov : List String) (df : DF)
    (hf : ∀ c ∈ ov, "resident_id" ≠ c ∧ "resident_id" ≠ c ++ "_health")
    (h : ∀ r ∈ df.rows, (getVal r "resident_id").isInt = true) :
    ∀ r ∈ (resolve_overlapping_columns df ov).rows,
      (getVal r "resident_id").isInt = true := by
  intro r hr
  obtain ⟨i, hi⟩ := List.mem_iff_get.mp hr
  have h1 : i.1 < df.rows.length := by
    rw [← resolve_fold_rows_length ov df]
    exact i.2
  rw [← hi]
  rw [resolve_fold_getVal_other ov df "resident_id" hf i.1 h1 i.2]
  exact h _ (List.get_mem _ _ _)

/-- C10: for inputs that pass key normalization (both readers succeed and
neither raw frame already carries a residentId column), every row of the
outer-join output, and of every later stage's output, has a present,
non-null canonical key: resident_id before the rename, residentId after. -/
theorem C10_key_never_null (hraw draw h' d' m res std ddc rd : DF)
    (hwh : WF hraw) (hwd : WF draw)
    (hrh : read_health_data hraw = some h')
    (hrd : read_demographic_data draw = some d')
    (hnh : "residentId" ∉ hraw.cols) (hnd : "residentId" ∉ draw.cols)
    (hm : m = merge_dataframes
      (prepare_health_data_for_merge h' (identify_overlapping_columns h' d')) d')
    (hres : res = resolve_overlapping_columns m (identify_overlapping_columns h' d'))
    (hstd : std = standardize_column_names res)
    (hddc : ddc = deduplicate_columns std)
    (hrd2 : rd = remove_duplicates ddc) :
    (∀ r ∈ m.rows, (getVal r "resident_id").isNull = false) ∧
    (∀ r ∈ res.rows, (getVal r "resident_id").isNull = false) ∧
    (∀ r ∈ std.rows, (getVal r "residentId").isNull = false) ∧
    (∀ r ∈ ddc.rows, (getVal r "residentId").isNull = false) ∧
    (∀ r ∈ rd.rows, (getVal r "residentId").isNull = false) ∧
    (∀ out, fill_missing_values rd = some out →
      ∀ r ∈ out.rows, (getVal r "residentId").isNull = false) := by
  obtain ⟨hwfh, hcolsh, hkmh, hkh⟩ := read_health_ok hraw h' hwh hrh
  obtain ⟨hwfd, hcolsd, hkmd, hkd⟩ := read_demo_ok draw d' hwd hrd
  have hov : ∀ c ∈ identify_overlapping_columns h' d', c ≠ "resident_id" :=
    identify_mem_ne_key h' d'
  obtain ⟨hwfp, hkmp, hkp⟩ :=
    prepare_health_ok h' (identify_overlapping_columns h' d') hov hwfh hkmh hkh
  have hnmh : "residentId" ∉ h'.cols := by
    rw [hcolsh]
    exact standardizeKeyCol_cols_not_mem hraw _ "residentId" hnh (by decide)
  have hnmd : "residentId" ∉ d'.cols := by
    rw [hcolsd]
    exact standardizeKeyCol_cols_not_mem draw _ "residentId" hnd (by decide)
  have hnmp : "residentId" ∉
      (prepare_health_data_for_merge h' (identify_overlapping_columns h' d')).cols :=
    prepare_cols_not_mem h' _ "residentId" hnmh append_health_ne_residentId
  have hkm : ∀ r ∈ m.rows, (getVal r "resident_id").isInt = true := by
    rw [hm]
    exact merge_keys_int _ d' hwfd hkmd hkd hkp
  have hwfm : WF m := by
    rw [hm]
    exact merge_WF _ d' hwfd hwfp
  have hnmm : "residentId" ∉ m.cols := by
    rw [hm]
    exact merge_cols_not_mem _ d' "residentId" hnmd hnmp
      append_health_ne_residentId (by decide)
  have hkres : ∀ r ∈ res.rows, (getVal r "resident_id").isInt = true := by
    rw [hres]
    apply resolve_keys_int _ m ?_ hkm
    intro c hc
    exact ⟨fun he => hov c hc he.symm, fun he => append_health_ne_resident_id c he.symm⟩
  have hwfres : WF res := by
    rw [hres]
    exact resolve_fold_WF _ m hwfm
  have hnmres : "residentId" ∉ res.cols := by
    rw [hres]
    exact resolve_fold_cols_mono _ m "residentId" hnmm
  obtain ⟨hwfstd, hkstd⟩ : WF std ∧
      ∀ r ∈ std.rows, (getVal r "residentId").isInt = true := by
    rw [hstd]
    exact standardize_keys_int res hwfres hnmres hkres
  have hkddc : ∀ r ∈ ddc.rows, (getVal r "residentId").isInt = true := by
    rw [hddc]
    exact dedup_keys_int std hkstd
  have hkrd : ∀ r ∈ rd.rows, (getVal r "residentId").isInt = true := by
    rw [hrd2]
    intro r hr
    exact hkddc r (dedupRowsAux_subset ddc.rows [] r hr)
  refine ⟨fun r hr => isInt_notNull _ (hkm r hr),
    fun r hr => isInt_notNull _ (hkres r hr),
    fun r hr => isInt_notNull _ (hkstd r hr),
    fun r hr => isInt_notNull _ (hkddc r hr),
    fun r hr => isInt_notNull _ (hkrd r hr), ?_⟩
  intro out hfill r hr
  have hmem : keyValR r ∈ out.rows.map keyValR := List.mem_map_of_mem keyValR hr
  rw [fill_keys rd out hfill] at hmem
  obtain ⟨r0, hr0, heq⟩ := List.mem_map.mp hmem
  have := hkrd r0 hr0
  unfold keyValR at heq
  rw [heq] at this
  exact isInt_notNull _ this

def dfC10h : DF :=
  ⟨["resident_id", "bp"], [[("resident_id", .int 1), ("bp", .str "120/80")]]⟩

def dfC10d : DF :=
  ⟨["resident_id", "name"], [[("resident_id", .int 2), ("name", .str "Asha")]]⟩

def dfC10m : DF :=
  merge_dataframes
    (prepare_health_data_for_merge dfC10h (identify_overlapping_columns dfC10h dfC10d))
    dfC10d

def dfC10res : DF :=
  resolve_overlapping_columns dfC10m (identify_overlapping_columns dfC10h dfC10d)

def dfC10std : DF := standardize_column_names dfC10res

def dfC10ddc : DF := deduplicate_columns dfC10std

def dfC10rd : DF := remove_duplicates dfC10ddc

theorem C10_witness :
    WF dfC10h ∧ WF dfC10d ∧
    read_health_data dfC10h = some dfC10h ∧
    read_demographic_data dfC10d = some dfC10d ∧
    "residentId" ∉ dfC10h.cols ∧ "residentId" ∉ dfC10d.cols ∧
    ((∀ r ∈ dfC10m.rows, (getVal r "resident_id").isNull = false) ∧
     (∀ r ∈ dfC10res.rows, (getVal r "resident_id").isNull = false) ∧
     (∀ r ∈ dfC10std.rows, (getVal r "residentId").isNull = false) ∧
     (∀ r ∈ dfC10ddc.rows, (getVal r "residentId").isNull = false) ∧
     (∀ r ∈ dfC10rd.rows, (getVal r "residentId").isNull = false) ∧
     (∀ out, fill_missing_values dfC10rd = some out →
       ∀ r ∈ out.rows, (getVal r "residentId").isNull = false)) :=
  ⟨by decide, by decide, by decide, by decide, by decide, by decide,
   C10_key_never_null dfC10h dfC10d dfC10h dfC10d dfC10m dfC10res dfC10std
     dfC10ddc dfC10rd (by decide) (by decide) (by decide) (by decide)
     (by decide) (by decide) rfl rfl rfl rfl rfl⟩
